import Mathlib

/-!
Shallow embedding of the AgentEscrow protocol core
(src/contracts/src/AgentEscrow.sol and src/contracts/src/Escrow.sol,
two variants of the same escrow ledger).

Machine integers are Nat with explicit checked-arithmetic guards that
mirror Solidity 0.8 semantics: a checked add or mul that would reach
2 ^ 256 yields the Overflow panic, a checked sub that would go below
zero yields the Underflow panic, and a revert is an Except.error that
discards every state write and every transfer, matching the EVM
transactional rollback (so a failed operation leaves the record
unchanged by construction).

Addresses, hashes and timestamps are Nat; address 0 plays the role of
address(0), and a token field of 0 selects the native-ETH path. A fund
movement is recorded as a Transfer value; the external token world is an
Env saying whether an ETH call succeeds and whether an ERC20
transfer / transferFrom moves the balance (erc20Ok or erc20FromOk
returning false models a token that returns false instead of
reverting — the balance does not move).
-/

def UMAX : Nat := 2 ^ 256

structure Transfer where
  token : Nat
  dest : Nat
  amount : Nat
  deriving DecidableEq, Repr

structure Env where
  ethCallOk : Nat → Bool
  erc20Ok : Nat → Nat → Bool
  erc20FromOk : Nat → Nat → Bool

/-- total value moved by a list of transfers. -/
def sumT (ts : List Transfer) : Nat := (ts.map Transfer.amount).sum

/-- total value moved to one recipient by a list of transfers. -/
def paidTo (ts : List Transfer) (who : Nat) : Nat :=
  ((ts.filter fun t => t.dest = who).map Transfer.amount).sum

/-- the escrow contract itself, as a destination of custody transfers. -/
def contractAddr : Nat := 2 ^ 161

namespace AgentEscrow

inductive EscrowState
  | Pending
  | Active
  | Submitted
  | Disputed
  | Resolved
  deriving DecidableEq, Repr

inductive Outcome
  | None
  | FullRelease
  | FullRefund
  | Partial
  deriving DecidableEq, Repr

structure Escrow where
  client : Nat
  worker : Nat
  token : Nat
  amount : Nat
  deadline : Nat
  criteriaHash : Nat
  state : EscrowState
  outcome : Outcome
  completionPct : Nat
  createdAt : Nat
  submittedAt : Nat
  evidenceHash : Nat
  deriving DecidableEq, Repr

/-- the all-zero record Solidity yields for a never-written mapping key. -/
def defaultEscrow : Escrow :=
  { client := 0, worker := 0, token := 0, amount := 0, deadline := 0,
    criteriaHash := 0, state := EscrowState.Pending, outcome := Outcome.None,
    completionPct := 0, createdAt := 0, submittedAt := 0, evidenceHash := 0 }

inductive Err
  | OnlyArbitrator
  | OnlyClient
  | OnlyWorker
  | InvalidState
  | InvalidAmount
  | DeadlinePassed
  | ReviewPeriodActive
  | TransferFailed
  | Overflow
  | Underflow
  deriving DecidableEq, Repr

structure Storage where
  escrows : Nat → Escrow
  arbitrator : Nat
  pendingArbitrator : Nat
  protocolFeeBps : Nat
  disputeFeeBps : Nat
  clientReviewPeriod : Nat
  arbitrationTimeout : Nat
  minEscrowAmount : Nat
  maxEscrowAmount : Nat
  escrowCount : Nat

def setEscrow (s : Storage) (id : Nat) (e : Escrow) : Storage :=
  { s with escrows := fun k => if k = id then e else s.escrows k }

@[simp] lemma setEscrow_same (s : Storage) (id : Nat) (e : Escrow) :
    (setEscrow s id e).escrows id = e := by
  simp [setEscrow]

lemma setEscrow_other (s : Storage) (id j : Nat) (e : Escrow) (h : j ≠ id) :
    (setEscrow s id e).escrows j = s.escrows j := by
  simp [setEscrow, h]

/-- basis-point fee, (amount * bps) / 10000, as written at
AgentEscrow.sol lines 225, 245, 265, 294 and 314. -/
def pFee (amount bps : Nat) : Nat := amount * bps / 10000

/-- the same fee with the Solidity 0.8 checked multiplication. -/
def feeOf (amount bps : Nat) : Except Err Nat :=
  if UMAX ≤ amount * bps then .error .Overflow else .ok (pFee amount bps)

/-- AgentEscrow.sol lines 370-379. The zero amount is skipped; the ETH
path checks the low-level call and reverts TransferFailed; the ERC20
path ignores the bool returned by IERC20.transfer (line 377), so a
token that returns false moves no balance yet the call is treated as a
success. -/
def _transfer (env : Env) (token dest amount : Nat) : Except Err (List Transfer) :=
  if amount = 0 then .ok []
  else if token = 0 then
    if env.ethCallOk dest then .ok [⟨token, dest, amount⟩] else .error .TransferFailed
  else
    if env.erc20Ok token dest then .ok [⟨token, dest, amount⟩] else .ok []

/-- keccak-based id of line 162, modelled as an abstract pairing. -/
def genId (sender count now : Nat) : Nat := Nat.pair sender (Nat.pair count now)

/-- AgentEscrow.sol lines 153-187. The ERC20 funding transferFrom at
line 168 has its return value unchecked: a token returning false leaves
the contract unfunded while the escrow record is still created. -/
def createEscrow (s : Storage) (env : Env)
    (sender value now token amount deadline criteriaHash : Nat) :
    Except Err (Storage × List Transfer × Nat) :=
  if amount < s.minEscrowAmount ∨ s.maxEscrowAmount < amount then .error .InvalidAmount
  else if deadline ≤ now then .error .DeadlinePassed
  else
    let id := genId sender s.escrowCount now
    let incoming : Except Err (List Transfer) :=
      if token = 0 then
        if value ≠ amount then .error .InvalidAmount
        else .ok [⟨0, contractAddr, amount⟩]
      else
        if env.erc20FromOk token sender then .ok [⟨token, contractAddr, amount⟩]
        else .ok []
    match incoming with
    | .error er => .error er
    | .ok ts =>
      let e : Escrow :=
        { client := sender, worker := 0, token := token, amount := amount,
          deadline := deadline, criteriaHash := criteriaHash,
          state := EscrowState.Pending, outcome := Outcome.None,
          completionPct := 0, createdAt := now, submittedAt := 0, evidenceHash := 0 }
      .ok ({ setEscrow s id e with escrowCount := s.escrowCount + 1 }, ts, id)

/-- AgentEscrow.sol lines 192-200. Only the inState(Pending) modifier
guards it: there is no existence check, and no check that the caller
differs from the client; any caller before the deadline becomes the
worker. -/
def acceptEscrow (s : Storage) (sender now id : Nat) :
    Except Err (Storage × List Transfer) :=
  if (s.escrows id).state ≠ EscrowState.Pending then .error .InvalidState
  else if (s.escrows id).deadline ≤ now then .error .DeadlinePassed
  else
    .ok (setEscrow s id
      { s.escrows id with worker := sender, state := EscrowState.Active }, [])

/-- AgentEscrow.sol lines 206-217, modifiers onlyWorker then inState. -/
def submitWork (s : Storage) (sender now id ev : Nat) :
    Except Err (Storage × List Transfer) :=
  if sender ≠ (s.escrows id).worker then .error .OnlyWorker
  else if (s.escrows id).state ≠ EscrowState.Active then .error .InvalidState
  else
    .ok (setEscrow s id
      { s.escrows id with
          evidenceHash := ev
          submittedAt := now
          state := EscrowState.Submitted }, [])

/-- AgentEscrow.sol lines 222-236, modifiers onlyClient then inState. -/
def release (s : Storage) (env : Env) (sender id : Nat) :
    Except Err (Storage × List Transfer) :=
  if sender ≠ (s.escrows id).client then .error .OnlyClient
  else if (s.escrows id).state ≠ EscrowState.Submitted then .error .InvalidState
  else
    let e := s.escrows id
    match feeOf e.amount s.protocolFeeBps with
    | .error er => .error er
    | .ok protocolFee =>
      if e.amount < protocolFee then .error .Underflow
      else
        let workerAmount := e.amount - protocolFee
        let s1 := setEscrow s id
          { e with
              state := EscrowState.Resolved
              outcome := Outcome.FullRelease
              completionPct := 100 }
        match _transfer env e.token e.worker workerAmount with
        | .error er => .error er
        | .ok t1 =>
          match _transfer env e.token s.arbitrator protocolFee with
          | .error er => .error er
          | .ok t2 => .ok (s1, t1 ++ t2)

/-- AgentEscrow.sol lines 241-255. The call-time clock now is a
parameter of every entrypoint, but dispute never reads it: the source
has no review-window check here. The ERC20 fee collection at line 249
is an unchecked transferFrom. -/
def dispute (s : Storage) (env : Env) (sender value now id : Nat) :
    Except Err (Storage × List Transfer) :=
  if sender ≠ (s.escrows id).client then .error .OnlyClient
  else if (s.escrows id).state ≠ EscrowState.Submitted then .error .InvalidState
  else
    let e := s.escrows id
    match feeOf e.amount s.disputeFeeBps with
    | .error er => .error er
    | .ok disputeFee =>
      if e.token = 0 then
        if value ≠ disputeFee then .error .InvalidAmount
        else .ok (setEscrow s id { e with state := EscrowState.Disputed },
          [⟨0, contractAddr, disputeFee⟩])
      else
        let ts := if env.erc20FromOk e.token sender then
          [⟨e.token, contractAddr, disputeFee⟩] else []
        .ok (setEscrow s id { e with state := EscrowState.Disputed }, ts)

/-- AgentEscrow.sol lines 260-276. Permissionless; requires
now at or past submittedAt + clientReviewPeriod, with the checked
addition of line 263. -/
def autoRelease (s : Storage) (env : Env) (now id : Nat) :
    Except Err (Storage × List Transfer) :=
  if (s.escrows id).state ≠ EscrowState.Submitted then .error .InvalidState
  else
    let e := s.escrows id
    if UMAX ≤ e.submittedAt + s.clientReviewPeriod then .error .Overflow
    else if now < e.submittedAt + s.clientReviewPeriod then .error .ReviewPeriodActive
    else
      match feeOf e.amount s.protocolFeeBps with
      | .error er => .error er
      | .ok protocolFee =>
        if e.amount < protocolFee then .error .Underflow
        else
          let workerAmount := e.amount - protocolFee
          let s1 := setEscrow s id
            { e with
                state := EscrowState.Resolved
                outcome := Outcome.FullRelease
                completionPct := 100 }
          match _transfer env e.token e.worker workerAmount with
          | .error er => .error er
          | .ok t1 =>
            match _transfer env e.token s.arbitrator protocolFee with
            | .error er => .error er
            | .ok t2 => .ok (s1, t1 ++ t2)

/-- AgentEscrow.sol lines 286-333, modifiers onlyArbitrator then
inState(Disputed); completion percentage capped at 100; the dispute fee
goes wholly to the worker when completionPct is at least 50, otherwise
wholly to the client (lines 324-328); transfer order is worker, client,
fee winner, arbitrator. -/
def resolve (s : Storage) (env : Env) (sender id pct : Nat) :
    Except Err (Storage × List Transfer) :=
  if sender ≠ s.arbitrator then .error .OnlyArbitrator
  else if (s.escrows id).state ≠ EscrowState.Disputed then .error .InvalidState
  else if 100 < pct then .error .InvalidAmount
  else
    let e := s.escrows id
    match feeOf e.amount s.protocolFeeBps with
    | .error er => .error er
    | .ok protocolFee =>
      if e.amount < protocolFee then .error .Underflow
      else
        let distributable := e.amount - protocolFee
        if UMAX ≤ distributable * pct then .error .Overflow
        else
          let workerAmount := distributable * pct / 100
          if distributable < workerAmount then .error .Underflow
          else
            let clientRefund := distributable - workerAmount
            let outcome :=
              if pct = 100 then Outcome.FullRelease
              else if pct = 0 then Outcome.FullRefund
              else Outcome.Partial
            let s1 := setEscrow s id
              { e with
                  state := EscrowState.Resolved
                  outcome := outcome
                  completionPct := pct }
            match feeOf e.amount s.disputeFeeBps with
            | .error er => .error er
            | .ok disputeFee =>
              match (if 0 < workerAmount then
                  _transfer env e.token e.worker workerAmount else .ok []) with
              | .error er => .error er
              | .ok t1 =>
                match (if 0 < clientRefund then
                    _transfer env e.token e.client clientRefund else .ok []) with
                | .error er => .error er
                | .ok t2 =>
                  match (if 50 ≤ pct then _transfer env e.token e.worker disputeFee
                      else _transfer env e.token e.client disputeFee) with
                  | .error er => .error er
                  | .ok t3 =>
                    match _transfer env e.token s.arbitrator protocolFee with
                    | .error er => .error er
                    | .ok t4 => .ok (s1, t1 ++ t2 ++ t3 ++ t4)

/-- AgentEscrow.sol lines 339-342: the incumbent nominates; the
arbitrator field itself is untouched. -/
def initiateArbitratorTransfer (s : Storage) (sender newArbitrator : Nat) :
    Except Err Storage :=
  if sender ≠ s.arbitrator then .error .OnlyArbitrator
  else .ok { s with pendingArbitrator := newArbitrator }

/-- AgentEscrow.sol lines 344-349: only the nominee itself completes
the handover. -/
def acceptArbitratorTransfer (s : Storage) (sender : Nat) : Except Err Storage :=
  if sender ≠ s.pendingArbitrator then .error .OnlyArbitrator
  else .ok { s with arbitrator := s.pendingArbitrator, pendingArbitrator := 0 }

/-- AgentEscrow.sol lines 351-354: no bound of any kind on the rates. -/
def setFees (s : Storage) (sender p d : Nat) : Except Err Storage :=
  if sender ≠ s.arbitrator then .error .OnlyArbitrator
  else .ok { s with protocolFeeBps := p, disputeFeeBps := d }

/-- AgentEscrow.sol lines 356-359. -/
def setLimits (s : Storage) (sender lo hi : Nat) : Except Err Storage :=
  if sender ≠ s.arbitrator then .error .OnlyArbitrator
  else .ok { s with minEscrowAmount := lo, maxEscrowAmount := hi }

/-- AgentEscrow.sol lines 361-364. -/
def setTimeouts (s : Storage) (sender rp at_ : Nat) : Except Err Storage :=
  if sender ≠ s.arbitrator then .error .OnlyArbitrator
  else .ok { s with clientReviewPeriod := rp, arbitrationTimeout := at_ }

/-- the per-escrow state-changing entrypoints, with their call context. -/
inductive EOp
  | accept (sender now : Nat)
  | submit (sender now ev : Nat)
  | release (sender : Nat)
  | dispute (sender value now : Nat)
  | autoRelease (now : Nat)
  | resolve (sender pct : Nat)

def applyEOp (s : Storage) (env : Env) (id : Nat) :
    EOp → Except Err (Storage × List Transfer)
  | .accept sender now => acceptEscrow s sender now id
  | .submit sender now ev => submitWork s sender now id ev
  | .release sender => release s env sender id
  | .dispute sender value now => dispute s env sender value now id
  | .autoRelease now => autoRelease s env now id
  | .resolve sender pct => resolve s env sender id pct

/-- the caller satisfies the role modifier of the entrypoint. -/
def roleOk (s : Storage) (id : Nat) : EOp → Prop
  | .accept _ _ => True
  | .submit sender _ _ => sender = (s.escrows id).worker
  | .release sender => sender = (s.escrows id).client
  | .dispute sender _ _ => sender = (s.escrows id).client
  | .autoRelease _ => True
  | .resolve sender _ => sender = s.arbitrator

/-- the forward edges of the lifecycle
Pending to Active to Submitted to (Disputed to Resolved, or Resolved). -/
def allowedEdge : EscrowState → EscrowState → Bool
  | .Pending, .Active => true
  | .Active, .Submitted => true
  | .Submitted, .Disputed => true
  | .Submitted, .Resolved => true
  | .Disputed, .Resolved => true
  | _, _ => false

end AgentEscrow

namespace Escrow

inductive EscrowState
  | PENDING
  | ACTIVE
  | SUBMITTED
  | DISPUTED
  | RESOLVED
  | CANCELLED
  deriving DecidableEq, Repr

structure EscrowData where
  client : Nat
  worker : Nat
  arbiter : Nat
  token : Nat
  amount : Nat
  deadline : Nat
  criteriaHash : Nat
  evidenceHash : Nat
  state : EscrowState
  createdAt : Nat
  submittedAt : Nat
  deriving DecidableEq, Repr

/-- the all-zero record of a never-written mapping key. -/
def defaultEscrow : EscrowData :=
  { client := 0, worker := 0, arbiter := 0, token := 0, amount := 0,
    deadline := 0, criteriaHash := 0, evidenceHash := 0,
    state := EscrowState.PENDING, createdAt := 0, submittedAt := 0 }

inductive Err
  | InvalidAmount
  | InvalidWorker
  | InvalidDeadline
  | EscrowNotFound
  | InvalidState
  | NotAuthorized
  | TransferFailed
  | DeadlinePassed
  | ReviewPeriodActive
  | InvalidPercentage
  | Overflow
  | Underflow
  deriving DecidableEq, Repr

structure Storage where
  escrows : Nat → EscrowData
  escrowCounter : Nat
  protocolArbiter : Nat
  owner : Nat

def setEscrow (s : Storage) (id : Nat) (e : EscrowData) : Storage :=
  { s with escrows := fun k => if k = id then e else s.escrows k }

@[simp] lemma setEscrowV_same (s : Storage) (id : Nat) (e : EscrowData) :
    (setEscrow s id e).escrows id = e := by
  simp [setEscrow]

lemma setEscrowV_other (s : Storage) (id j : Nat) (e : EscrowData) (h : j ≠ id) :
    (setEscrow s id e).escrows j = s.escrows j := by
  simp [setEscrow, h]

/-- Escrow.sol line 53, 0.001 ether in wei. -/
def MIN_ESCROW : Nat := 1000000000000000

/-- Escrow.sol line 56, 5 ether in wei. -/
def MAX_ESCROW : Nat := 5000000000000000000

/-- Escrow.sol line 59, 4 hours in seconds. -/
def REVIEW_TIMEOUT : Nat := 14400

/-- Escrow.sol line 62. -/
def ARBITER_FEE_BPS : Nat := 500

/-- Escrow.sol line 65 (declared; the dispute path collects no fee). -/
def DISPUTE_FEE_BPS : Nat := 100

/-- Escrow.sol line 68. -/
def BPS_DENOMINATOR : Nat := 10000

/-- Escrow.sol lines 420-428: both the ETH path and the ERC20 path
check success and revert TransferFailed; no zero-amount skip. -/
def _transferFunds (env : Env) (token dest amount : Nat) :
    Except Err (List Transfer) :=
  if token = 0 then
    if env.ethCallOk dest then .ok [⟨token, dest, amount⟩] else .error .TransferFailed
  else
    if env.erc20Ok token dest then .ok [⟨token, dest, amount⟩] else .error .TransferFailed

/-- Escrow.sol lines 412-414. -/
def _generateEscrowId (now sender counter : Nat) : Nat :=
  Nat.pair now (Nat.pair sender counter)

/-- Escrow.sol lines 160-186 (ETH variant; the worker is fixed at
creation and must differ from the client). -/
def createEscrow (s : Storage) (sender value now worker deadline criteriaHash : Nat) :
    Except Err (Storage × List Transfer × Nat) :=
  if value < MIN_ESCROW ∨ MAX_ESCROW < value then .error .InvalidAmount
  else if worker = 0 ∨ worker = sender then .error .InvalidWorker
  else if deadline ≤ now then .error .InvalidDeadline
  else
    let id := _generateEscrowId now sender s.escrowCounter
    let e : EscrowData :=
      { client := sender, worker := worker, arbiter := s.protocolArbiter,
        token := 0, amount := value, deadline := deadline,
        criteriaHash := criteriaHash, evidenceHash := 0,
        state := EscrowState.PENDING, createdAt := now, submittedAt := 0 }
    .ok ({ setEscrow s id e with escrowCounter := s.escrowCounter + 1 },
      [⟨0, contractAddr, value⟩], id)

/-- Escrow.sol lines 195-227: the funding transferFrom is checked
(line 207-208) and a false return aborts with TransferFailed. -/
def createEscrowERC20 (s : Storage) (env : Env)
    (sender now worker token amount deadline criteriaHash : Nat) :
    Except Err (Storage × List Transfer × Nat) :=
  if amount = 0 then .error .InvalidAmount
  else if worker = 0 ∨ worker = sender then .error .InvalidWorker
  else if deadline ≤ now then .error .InvalidDeadline
  else if ¬ env.erc20FromOk token sender then .error .TransferFailed
  else
    let id := _generateEscrowId now sender s.escrowCounter
    let e : EscrowData :=
      { client := sender, worker := worker, arbiter := s.protocolArbiter,
        token := token, amount := amount, deadline := deadline,
        criteriaHash := criteriaHash, evidenceHash := 0,
        state := EscrowState.PENDING, createdAt := now, submittedAt := 0 }
    .ok ({ setEscrow s id e with escrowCounter := s.escrowCounter + 1 },
      [⟨token, contractAddr, amount⟩], id)

/-- Escrow.sol lines 231-244, modifiers escrowExists then inState;
only the pre-designated worker may accept, and the deadline check at
line 239 rejects only now strictly past the deadline. The worker field
is not written here (it was set at creation). -/
def acceptEscrow (s : Storage) (sender now id : Nat) :
    Except Err (Storage × List Transfer) :=
  if (s.escrows id).client = 0 then .error .EscrowNotFound
  else if (s.escrows id).state ≠ EscrowState.PENDING then .error .InvalidState
  else if sender ≠ (s.escrows id).worker then .error .NotAuthorized
  else if (s.escrows id).deadline < now then .error .DeadlinePassed
  else .ok (setEscrow s id { s.escrows id with state := EscrowState.ACTIVE }, [])

/-- Escrow.sol lines 249-263. -/
def submitDeliverable (s : Storage) (sender now id ev : Nat) :
    Except Err (Storage × List Transfer) :=
  if (s.escrows id).client = 0 then .error .EscrowNotFound
  else if (s.escrows id).state ≠ EscrowState.ACTIVE then .error .InvalidState
  else if sender ≠ (s.escrows id).worker then .error .NotAuthorized
  else .ok (setEscrow s id
    { s.escrows id with
        evidenceHash := ev
        state := EscrowState.SUBMITTED
        submittedAt := now }, [])

/-- Escrow.sol lines 267-282: pays the full amount to the worker, with
no protocol fee in this variant. -/
def releasePayment (s : Storage) (env : Env) (sender id : Nat) :
    Except Err (Storage × List Transfer) :=
  if (s.escrows id).client = 0 then .error .EscrowNotFound
  else if (s.escrows id).state ≠ EscrowState.SUBMITTED then .error .InvalidState
  else if sender ≠ (s.escrows id).client then .error .NotAuthorized
  else
    let e := s.escrows id
    let s1 := setEscrow s id { e with state := EscrowState.RESOLVED }
    match _transferFunds env e.token e.worker e.amount with
    | .error er => .error er
    | .ok ts => .ok (s1, ts)

/-- Escrow.sol lines 287-300: dispute collects no fee here, and the
window check at line 295 rejects only now strictly past
submittedAt + REVIEW_TIMEOUT, so the boundary instant still disputes. -/
def dispute (s : Storage) (sender now reasonHash id : Nat) :
    Except Err (Storage × List Transfer) :=
  if (s.escrows id).client = 0 then .error .EscrowNotFound
  else if (s.escrows id).state ≠ EscrowState.SUBMITTED then .error .InvalidState
  else if sender ≠ (s.escrows id).client then .error .NotAuthorized
  else if UMAX ≤ (s.escrows id).submittedAt + REVIEW_TIMEOUT then .error .Overflow
  else if (s.escrows id).submittedAt + REVIEW_TIMEOUT < now then .error .ReviewPeriodActive
  else .ok (setEscrow s id { s.escrows id with state := EscrowState.DISPUTED }, [])

/-- Escrow.sol lines 305-336, modifiers onlyArbiter, escrowExists,
inState(DISPUTED); transfer order is arbiter, worker, client. -/
def resolveDispute (s : Storage) (env : Env) (sender id pct : Nat) :
    Except Err (Storage × List Transfer) :=
  if sender ≠ s.protocolArbiter then .error .NotAuthorized
  else if (s.escrows id).client = 0 then .error .EscrowNotFound
  else if (s.escrows id).state ≠ EscrowState.DISPUTED then .error .InvalidState
  else if 100 < pct then .error .InvalidPercentage
  else
    let e := s.escrows id
    let s1 := setEscrow s id { e with state := EscrowState.RESOLVED }
    if UMAX ≤ e.amount * ARBITER_FEE_BPS then .error .Overflow
    else
      let arbiterFee := e.amount * ARBITER_FEE_BPS / BPS_DENOMINATOR
      if e.amount < arbiterFee then .error .Underflow
      else
        let remaining := e.amount - arbiterFee
        if UMAX ≤ remaining * pct then .error .Overflow
        else
          let workerAmount := remaining * pct / 100
          if remaining < workerAmount then .error .Underflow
          else
            let clientAmount := remaining - workerAmount
            match (if 0 < arbiterFee then
                _transferFunds env e.token e.arbiter arbiterFee else .ok []) with
            | .error er => .error er
            | .ok t1 =>
              match (if 0 < workerAmount then
                  _transferFunds env e.token e.worker workerAmount else .ok []) with
              | .error er => .error er
              | .ok t2 =>
                match (if 0 < clientAmount then
                    _transferFunds env e.token e.client clientAmount else .ok []) with
                | .error er => .error er
                | .ok t3 => .ok (s1, t1 ++ t2 ++ t3)

/-- Escrow.sol lines 340-355. -/
def cancelEscrow (s : Storage) (env : Env) (sender id : Nat) :
    Except Err (Storage × List Transfer) :=
  if (s.escrows id).client = 0 then .error .EscrowNotFound
  else if (s.escrows id).state ≠ EscrowState.PENDING then .error .InvalidState
  else if sender ≠ (s.escrows id).client then .error .NotAuthorized
  else
    let e := s.escrows id
    let s1 := setEscrow s id { e with state := EscrowState.CANCELLED }
    match _transferFunds env e.token e.client e.amount with
    | .error er => .error er
    | .ok ts => .ok (s1, ts)

/-- Escrow.sol lines 359-376: worker-only, and the window check at
line 368 rejects now at or before submittedAt + REVIEW_TIMEOUT, so the
claim becomes possible only strictly after the boundary; the worker
then receives the full amount, with no protocol fee. -/
def claimExpiredEscrow (s : Storage) (env : Env) (sender now id : Nat) :
    Except Err (Storage × List Transfer) :=
  if (s.escrows id).client = 0 then .error .EscrowNotFound
  else if (s.escrows id).state ≠ EscrowState.SUBMITTED then .error .InvalidState
  else if sender ≠ (s.escrows id).worker then .error .NotAuthorized
  else if UMAX ≤ (s.escrows id).submittedAt + REVIEW_TIMEOUT then .error .Overflow
  else if now ≤ (s.escrows id).submittedAt + REVIEW_TIMEOUT then .error .ReviewPeriodActive
  else
    let e := s.escrows id
    let s1 := setEscrow s id { e with state := EscrowState.RESOLVED }
    match _transferFunds env e.token e.worker e.amount with
    | .error er => .error er
    | .ok ts => .ok (s1, ts)

/-- Escrow.sol lines 398-400: a single onlyOwner call replaces the
arbiter, with no acceptance step in this variant. -/
def setProtocolArbiter (s : Storage) (sender newArbiter : Nat) : Except Err Storage :=
  if sender ≠ s.owner then .error .NotAuthorized
  else .ok { s with protocolArbiter := newArbiter }

/-- Escrow.sol lines 404-406. -/
def transferOwnership (s : Storage) (sender newOwner : Nat) : Except Err Storage :=
  if sender ≠ s.owner then .error .NotAuthorized
  else .ok { s with owner := newOwner }

/-- the per-escrow state-changing entrypoints of this variant. -/
inductive EOp
  | accept (sender now : Nat)
  | submit (sender now ev : Nat)
  | releasePayment (sender : Nat)
  | dispute (sender now reason : Nat)
  | resolveDispute (sender pct : Nat)
  | cancel (sender : Nat)
  | claimExpired (sender now : Nat)

def applyEOp (s : Storage) (env : Env) (id : Nat) :
    EOp → Except Err (Storage × List Transfer)
  | .accept sender now => acceptEscrow s sender now id
  | .submit sender now ev => submitDeliverable s sender now id ev
  | .releasePayment sender => Escrow.releasePayment s env sender id
  | .dispute sender now reason => Escrow.dispute s sender now reason id
  | .resolveDispute sender pct => Escrow.resolveDispute s env sender id pct
  | .cancel sender => cancelEscrow s env sender id
  | .claimExpired sender now => claimExpiredEscrow s env sender now id

/-- the caller satisfies the role checks of the entrypoint. -/
def roleOk (s : Storage) (id : Nat) : EOp → Prop
  | .accept sender _ => sender = (s.escrows id).worker
  | .submit sender _ _ => sender = (s.escrows id).worker
  | .releasePayment sender => sender = (s.escrows id).client
  | .dispute sender _ _ => sender = (s.escrows id).client
  | .resolveDispute sender _ => sender = s.protocolArbiter
  | .cancel sender => sender = (s.escrows id).client
  | .claimExpired sender _ => sender = (s.escrows id).worker

/-- lifecycle edges of this variant, including PENDING to CANCELLED. -/
def allowedEdge : EscrowState → EscrowState → Bool
  | .PENDING, .ACTIVE => true
  | .ACTIVE, .SUBMITTED => true
  | .SUBMITTED, .DISPUTED => true
  | .SUBMITTED, .RESOLVED => true
  | .DISPUTED, .RESOLVED => true
  | .PENDING, .CANCELLED => true
  | _, _ => false

end Escrow

/-! ## Concrete fixtures used by witnesses and counterexamples -/

/-- an honest token world: every call and token movement succeeds. -/
def env0 : Env := ⟨fun _ => true, fun _ _ => true, fun _ _ => true⟩

/-- a world whose ERC20 token rejects every movement by returning
false (without reverting); ETH calls still succeed. -/
def envBad : Env := ⟨fun _ => true, fun _ _ => false, fun _ _ => false⟩

def baseEscrowA : AgentEscrow.Escrow :=
  { client := 5, worker := 6, token := 0, amount := 1000, deadline := 100000,
    criteriaHash := 77, state := AgentEscrow.EscrowState.Pending,
    outcome := AgentEscrow.Outcome.None, completionPct := 0,
    createdAt := 1, submittedAt := 0, evidenceHash := 0 }

def mkStorageA (e : AgentEscrow.Escrow) : AgentEscrow.Storage :=
  { escrows := fun k => if k = 0 then e else AgentEscrow.defaultEscrow,
    arbitrator := 1, pendingArbitrator := 0, protocolFeeBps := 100,
    disputeFeeBps := 100, clientReviewPeriod := 14400, arbitrationTimeout := 28800,
    minEscrowAmount := 10, maxEscrowAmount := 5000000, escrowCount := 1 }

def baseEscrowB : Escrow.EscrowData :=
  { client := 5, worker := 6, arbiter := 2, token := 0, amount := 1000,
    deadline := 100000, criteriaHash := 77, evidenceHash := 0,
    state := Escrow.EscrowState.SUBMITTED, createdAt := 1, submittedAt := 0 }

def mkStorageB (e : Escrow.EscrowData) : Escrow.Storage :=
  { escrows := fun k => if k = 0 then e else Escrow.defaultEscrow,
    escrowCounter := 1, protocolArbiter := 2, owner := 1 }

/-! ## Helper lemmas -/

namespace AgentEscrow

lemma transfer_honest (env : Env) (heth : ∀ a, env.ethCallOk a = true)
    (herc : ∀ t a, env.erc20Ok t a = true) (token dest amount : Nat) :
    _transfer env token dest amount =
      .ok (if amount = 0 then [] else [⟨token, dest, amount⟩]) := by
  unfold _transfer
  by_cases h0 : amount = 0
  · simp [h0]
  · by_cases ht : token = 0 <;> simp [h0, ht, heth, herc]

lemma transfer_error (env : Env) (token dest amount : Nat) (er : Err)
    (h : _transfer env token dest amount = .error er) : er = .TransferFailed := by
  unfold _transfer at h
  split at h
  · exact Except.noConfusion h
  · split at h
    · split at h
      · exact Except.noConfusion h
      · simpa using h.symm
    · split at h
      · exact Except.noConfusion h
      · exact Except.noConfusion h

lemma pFee_le (amount bps : Nat) (h : bps ≤ 10000) : pFee amount bps ≤ amount := by
  unfold pFee
  calc amount * bps / 10000 ≤ amount * 10000 / 10000 :=
        Nat.div_le_div_right (Nat.mul_le_mul_left amount h)
    _ = amount := Nat.mul_div_cancel amount (by omega)

lemma feeOf_error (amount bps : Nat) (er : Err)
    (h : feeOf amount bps = .error er) : er = .Overflow := by
  unfold feeOf at h
  split at h
  · simpa using h.symm
  · exact Except.noConfusion h

lemma feeOf_ok (amount bps fee : Nat)
    (h : feeOf amount bps = .ok fee) : fee = pFee amount bps := by
  unfold feeOf at h
  split at h
  · exact Except.noConfusion h
  · simpa using h.symm

end AgentEscrow

/-! ## Inversion lemmas for the AgentEscrow entrypoints -/

namespace AgentEscrow

lemma transfer_cases (env : Env) (token dest amount : Nat) :
    (∃ l, _transfer env token dest amount = .ok l) ∨
    _transfer env token dest amount = .error .TransferFailed := by
  unfold _transfer
  by_cases h0 : amount = 0
  · exact Or.inl ⟨[], by simp [h0]⟩
  · by_cases ht : token = 0
    · by_cases he : env.ethCallOk dest
      · exact Or.inl ⟨[⟨token, dest, amount⟩], by simp [h0, ht, he]⟩
      · exact Or.inr (by simp [h0, ht, he])
    · by_cases he : env.erc20Ok token dest
      · exact Or.inl ⟨[⟨token, dest, amount⟩], by simp [h0, ht, he]⟩
      · exact Or.inl ⟨[], by simp [h0, ht, he]⟩

lemma accept_inv {s : Storage} {sender now id : Nat} {s' : Storage}
    {ts : List Transfer} (h : acceptEscrow s sender now id = .ok (s', ts)) :
    (s.escrows id).state = EscrowState.Pending ∧ now < (s.escrows id).deadline ∧
    s' = setEscrow s id
      { s.escrows id with worker := sender, state := EscrowState.Active } ∧
    ts = [] := by
  unfold acceptEscrow at h
  split at h
  · exact Except.noConfusion h
  split at h
  · exact Except.noConfusion h
  rename_i hs hd
  simp only [Except.ok.injEq, Prod.mk.injEq] at h
  exact ⟨by simpa using hs, by omega, h.1.symm, h.2.symm⟩

lemma submit_inv {s : Storage} {sender now id ev : Nat} {s' : Storage}
    {ts : List Transfer} (h : submitWork s sender now id ev = .ok (s', ts)) :
    sender = (s.escrows id).worker ∧
    (s.escrows id).state = EscrowState.Active ∧
    s' = setEscrow s id
      { s.escrows id with
          evidenceHash := ev
          submittedAt := now
          state := EscrowState.Submitted } ∧
    ts = [] := by
  unfold submitWork at h
  split at h
  · exact Except.noConfusion h
  split at h
  · exact Except.noConfusion h
  rename_i hw hs
  simp only [Except.ok.injEq, Prod.mk.injEq] at h
  exact ⟨by simpa using hw, by simpa using hs, h.1.symm, h.2.symm⟩

lemma release_inv {s : Storage} {env : Env} {sender id : Nat} {s' : Storage}
    {ts : List Transfer} (h : release s env sender id = .ok (s', ts)) :
    sender = (s.escrows id).client ∧
    (s.escrows id).state = EscrowState.Submitted ∧
    pFee (s.escrows id).amount s.protocolFeeBps ≤ (s.escrows id).amount ∧
    s' = setEscrow s id
      { s.escrows id with
          state := EscrowState.Resolved
          outcome := Outcome.FullRelease
          completionPct := 100 } := by
  unfold release at h
  split at h
  · exact Except.noConfusion h
  split at h
  · exact Except.noConfusion h
  rename_i hc hs
  dsimp only at h
  rcases hfe : feeOf (s.escrows id).amount s.protocolFeeBps with er | pf
  all_goals rw [hfe] at h
  · exact Except.noConfusion h
  dsimp only at h
  split at h
  · exact Except.noConfusion h
  rename_i hlt
  split at h
  · exact Except.noConfusion h
  split at h
  · exact Except.noConfusion h
  simp only [Except.ok.injEq, Prod.mk.injEq] at h
  have hpf := feeOf_ok _ _ _ hfe
  subst hpf
  exact ⟨by simpa using hc, by simpa using hs, by omega, h.1.symm⟩

lemma dispute_inv {s : Storage} {env : Env} {sender value now id : Nat}
    {s' : Storage} {ts : List Transfer}
    (h : dispute s env sender value now id = .ok (s', ts)) :
    sender = (s.escrows id).client ∧
    (s.escrows id).state = EscrowState.Submitted ∧
    s' = setEscrow s id { s.escrows id with state := EscrowState.Disputed } := by
  unfold dispute at h
  split at h
  · exact Except.noConfusion h
  split at h
  · exact Except.noConfusion h
  rename_i hc hs
  dsimp only at h
  rcases hfe : feeOf (s.escrows id).amount s.disputeFeeBps with er | df
  all_goals rw [hfe] at h
  · exact Except.noConfusion h
  dsimp only at h
  split at h
  · split at h
    · exact Except.noConfusion h
    · simp only [Except.ok.injEq, Prod.mk.injEq] at h
      exact ⟨by simpa using hc, by simpa using hs, h.1.symm⟩
  · simp only [Except.ok.injEq, Prod.mk.injEq] at h
    exact ⟨by simpa using hc, by simpa using hs, h.1.symm⟩

lemma autoRelease_inv {s : Storage} {env : Env} {now id : Nat} {s' : Storage}
    {ts : List Transfer} (h : autoRelease s env now id = .ok (s', ts)) :
    (s.escrows id).state = EscrowState.Submitted ∧
    (s.escrows id).submittedAt + s.clientReviewPeriod ≤ now ∧
    pFee (s.escrows id).amount s.protocolFeeBps ≤ (s.escrows id).amount ∧
    s' = setEscrow s id
      { s.escrows id with
          state := EscrowState.Resolved
          outcome := Outcome.FullRelease
          completionPct := 100 } := by
  unfold autoRelease at h
  split at h
  · exact Except.noConfusion h
  rename_i hs
  dsimp only at h
  split at h
  · exact Except.noConfusion h
  split at h
  · exact Except.noConfusion h
  rename_i hov hrw
  rcases hfe : feeOf (s.escrows id).amount s.protocolFeeBps with er | pf
  all_goals rw [hfe] at h
  · exact Except.noConfusion h
  dsimp only at h
  split at h
  · exact Except.noConfusion h
  rename_i hlt
  split at h
  · exact Except.noConfusion h
  split at h
  · exact Except.noConfusion h
  simp only [Except.ok.injEq, Prod.mk.injEq] at h
  have hpf := feeOf_ok _ _ _ hfe
  subst hpf
  exact ⟨by simpa using hs, by omega, by omega, h.1.symm⟩

lemma resolve_inv {s : Storage} {env : Env} {sender id pct : Nat} {s' : Storage}
    {ts : List Transfer} (h : resolve s env sender id pct = .ok (s', ts)) :
    sender = s.arbitrator ∧
    (s.escrows id).state = EscrowState.Disputed ∧ pct ≤ 100 ∧
    s' = setEscrow s id
      { s.escrows id with
          state := EscrowState.Resolved
          outcome :=
            if pct = 100 then Outcome.FullRelease
            else if pct = 0 then Outcome.FullRefund
            else Outcome.Partial
          completionPct := pct } := by
  unfold resolve at h
  split at h
  · exact Except.noConfusion h
  split at h
  · exact Except.noConfusion h
  split at h
  · exact Except.noConfusion h
  rename_i ha hs hp
  dsimp only at h
  rcases hfe : feeOf (s.escrows id).amount s.protocolFeeBps with er | pf
  all_goals rw [hfe] at h
  · exact Except.noConfusion h
  dsimp only at h
  split at h
  · exact Except.noConfusion h
  split at h
  · exact Except.noConfusion h
  split at h
  · exact Except.noConfusion h
  rcases hdf : feeOf (s.escrows id).amount s.disputeFeeBps with er | df
  all_goals rw [hdf] at h
  · exact Except.noConfusion h
  dsimp only at h
  split at h
  · exact Except.noConfusion h
  split at h
  · exact Except.noConfusion h
  split at h
  · exact Except.noConfusion h
  split at h
  · exact Except.noConfusion h
  simp only [Except.ok.injEq, Prod.mk.injEq] at h
  exact ⟨by simpa using ha, by simpa using hs, by omega, h.1.symm⟩

end AgentEscrow

/-! ## Inversion lemmas for the Escrow variant entrypoints -/

namespace Escrow

lemma transferFunds_honest (env : Env) (heth : ∀ a, env.ethCallOk a = true)
    (herc : ∀ t a, env.erc20Ok t a = true) (token dest amount : Nat) :
    _transferFunds env token dest amount = .ok [⟨token, dest, amount⟩] := by
  unfold _transferFunds
  by_cases ht : token = 0 <;> simp [ht, heth, herc]

lemma acceptV_inv {s : Storage} {sender now id : Nat} {s' : Storage}
    {ts : List Transfer} (h : acceptEscrow s sender now id = .ok (s', ts)) :
    (s.escrows id).client ≠ 0 ∧
    (s.escrows id).state = EscrowState.PENDING ∧
    sender = (s.escrows id).worker ∧ now ≤ (s.escrows id).deadline ∧
    s' = setEscrow s id { s.escrows id with state := EscrowState.ACTIVE } ∧
    ts = [] := by
  unfold acceptEscrow at h
  split at h
  · exact Except.noConfusion h
  split at h
  · exact Except.noConfusion h
  split at h
  · exact Except.noConfusion h
  split at h
  · exact Except.noConfusion h
  rename_i h0 hs hw hd
  simp only [Except.ok.injEq, Prod.mk.injEq] at h
  exact ⟨h0, by simpa using hs, by simpa using hw, by omega, h.1.symm, h.2.symm⟩

lemma submitV_inv {s : Storage} {sender now id ev : Nat} {s' : Storage}
    {ts : List Transfer} (h : submitDeliverable s sender now id ev = .ok (s', ts)) :
    (s.escrows id).client ≠ 0 ∧
    (s.escrows id).state = EscrowState.ACTIVE ∧
    sender = (s.escrows id).worker ∧
    s' = setEscrow s id
      { s.escrows id with
          evidenceHash := ev
          state := EscrowState.SUBMITTED
          submittedAt := now } ∧
    ts = [] := by
  unfold submitDeliverable at h
  split at h
  · exact Except.noConfusion h
  split at h
  · exact Except.noConfusion h
  split at h
  · exact Except.noConfusion h
  rename_i h0 hs hw
  simp only [Except.ok.injEq, Prod.mk.injEq] at h
  exact ⟨h0, by simpa using hs, by simpa using hw, h.1.symm, h.2.symm⟩

lemma releasePayment_inv {s : Storage} {env : Env} {sender id : Nat}
    {s' : Storage} {ts : List Transfer}
    (h : releasePayment s env sender id = .ok (s', ts)) :
    (s.escrows id).client ≠ 0 ∧
    (s.escrows id).state = EscrowState.SUBMITTED ∧
    sender = (s.escrows id).client ∧
    s' = setEscrow s id { s.escrows id with state := EscrowState.RESOLVED } := by
  unfold releasePayment at h
  split at h
  · exact Except.noConfusion h
  split at h
  · exact Except.noConfusion h
  split at h
  · exact Except.noConfusion h
  rename_i h0 hs hc
  dsimp only at h
  split at h
  · exact Except.noConfusion h
  simp only [Except.ok.injEq, Prod.mk.injEq] at h
  exact ⟨h0, by simpa using hs, by simpa using hc, h.1.symm⟩

lemma disputeV_inv {s : Storage} {sender now reason id : Nat}
    {s' : Storage} {ts : List Transfer}
    (h : dispute s sender now reason id = .ok (s', ts)) :
    (s.escrows id).client ≠ 0 ∧
    (s.escrows id).state = EscrowState.SUBMITTED ∧
    sender = (s.escrows id).client ∧
    now ≤ (s.escrows id).submittedAt + REVIEW_TIMEOUT ∧
    s' = setEscrow s id { s.escrows id with state := EscrowState.DISPUTED } ∧
    ts = [] := by
  unfold dispute at h
  split at h
  · exact Except.noConfusion h
  split at h
  · exact Except.noConfusion h
  split at h
  · exact Except.noConfusion h
  split at h
  · exact Except.noConfusion h
  split at h
  · exact Except.noConfusion h
  rename_i h0 hs hc hov hrw
  simp only [Except.ok.injEq, Prod.mk.injEq] at h
  exact ⟨h0, by simpa using hs, by simpa using hc, by omega, h.1.symm, h.2.symm⟩

set_option maxHeartbeats 2000000 in
lemma resolveDispute_inv {s : Storage} {env : Env} {sender id pct : Nat}
    {s' : Storage} {ts : List Transfer}
    (h : resolveDispute s env sender id pct = .ok (s', ts)) :
    sender = s.protocolArbiter ∧
    (s.escrows id).client ≠ 0 ∧
    (s.escrows id).state = EscrowState.DISPUTED ∧ pct ≤ 100 ∧
    s' = setEscrow s id { s.escrows id with state := EscrowState.RESOLVED } := by
  unfold resolveDispute at h
  split at h
  · exact Except.noConfusion h
  split at h
  · exact Except.noConfusion h
  split at h
  · exact Except.noConfusion h
  split at h
  · exact Except.noConfusion h
  rename_i ha h0 hs hp
  dsimp only at h
  split at h
  · exact Except.noConfusion h
  split at h
  · exact Except.noConfusion h
  split at h
  · exact Except.noConfusion h
  split at h
  · exact Except.noConfusion h
  split at h
  · exact Except.noConfusion h
  split at h
  · exact Except.noConfusion h
  split at h
  · exact Except.noConfusion h
  simp only [Except.ok.injEq, Prod.mk.injEq] at h
  exact ⟨by simpa using ha, h0, by simpa using hs, by omega, h.1.symm⟩

lemma cancel_inv {s : Storage} {env : Env} {sender id : Nat}
    {s' : Storage} {ts : List Transfer}
    (h : cancelEscrow s env sender id = .ok (s', ts)) :
    (s.escrows id).client ≠ 0 ∧
    (s.escrows id).state = EscrowState.PENDING ∧
    sender = (s.escrows id).client ∧
    s' = setEscrow s id { s.escrows id with state := EscrowState.CANCELLED } := by
  unfold cancelEscrow at h
  split at h
  · exact Except.noConfusion h
  split at h
  · exact Except.noConfusion h
  split at h
  · exact Except.noConfusion h
  rename_i h0 hs hc
  dsimp only at h
  split at h
  · exact Except.noConfusion h
  simp only [Except.ok.injEq, Prod.mk.injEq] at h
  exact ⟨h0, by simpa using hs, by simpa using hc, h.1.symm⟩

lemma claimExpired_inv {s : Storage} {env : Env} {sender now id : Nat}
    {s' : Storage} {ts : List Transfer}
    (h : claimExpiredEscrow s env sender now id = .ok (s', ts)) :
    (s.escrows id).client ≠ 0 ∧
    (s.escrows id).state = EscrowState.SUBMITTED ∧
    sender = (s.escrows id).worker ∧
    (s.escrows id).submittedAt + REVIEW_TIMEOUT < now ∧
    s' = setEscrow s id { s.escrows id with state := EscrowState.RESOLVED } := by
  unfold claimExpiredEscrow at h
  split at h
  · exact Except.noConfusion h
  split at h
  · exact Except.noConfusion h
  split at h
  · exact Except.noConfusion h
  split at h
  · exact Except.noConfusion h
  split at h
  · exact Except.noConfusion h
  rename_i h0 hs hw hov hrw
  dsimp only at h
  split at h
  · exact Except.noConfusion h
  simp only [Except.ok.injEq, Prod.mk.injEq] at h
  exact ⟨h0, by simpa using hs, by simpa using hw, by omega, h.1.symm⟩

end Escrow

/-! ## C9 -/

/-- C9 counterexample: on an id for which no escrow was ever created
(the mapping still holds the all-zero record), AgentEscrow.acceptEscrow
does not fail with a distinct not-found signal: its error type has no
such signal at all, and the call falls through the inState(Pending)
check of the zero record to the deadline check, failing DeadlinePassed. -/
theorem C9_counterexample :
    (mkStorageA baseEscrowA).escrows 7 = AgentEscrow.defaultEscrow ∧
    AgentEscrow.acceptEscrow (mkStorageA baseEscrowA) 3 100 7 =
      .error AgentEscrow.Err.DeadlinePassed :=
  ⟨rfl, rfl⟩

/-- C9 (amended): accept of a never-created id fails EscrowNotFound in
the Escrow variant; AgentEscrow has no existence check, and such a call
fails DeadlinePassed instead (the all-zero record has state Pending and
deadline 0); in both variants the failure leaves all state unchanged
(a revert discards every write). -/
theorem C9_amended_accept_missing :
    (∀ (s : AgentEscrow.Storage) (sender now id : Nat),
      s.escrows id = AgentEscrow.defaultEscrow →
      AgentEscrow.acceptEscrow s sender now id =
        .error AgentEscrow.Err.DeadlinePassed) ∧
    (∀ (s : Escrow.Storage) (sender now id : Nat),
      s.escrows id = Escrow.defaultEscrow →
      Escrow.acceptEscrow s sender now id = .error Escrow.Err.EscrowNotFound) := by
  constructor
  · intro s sender now id h
    simp [AgentEscrow.acceptEscrow, h, AgentEscrow.defaultEscrow]
  · intro s sender now id h
    simp [Escrow.acceptEscrow, h, Escrow.defaultEscrow]

/-- C9 witness: the amended theorem applied to a concrete never-created
id in each variant. -/
theorem C9_amended_accept_missing_witness :
    AgentEscrow.acceptEscrow (mkStorageA baseEscrowA) 3 100 7 =
      .error AgentEscrow.Err.DeadlinePassed ∧
    Escrow.acceptEscrow (mkStorageB baseEscrowB) 3 100 7 =
      .error Escrow.Err.EscrowNotFound :=
  ⟨C9_amended_accept_missing.1 (mkStorageA baseEscrowA) 3 100 7 rfl,
   C9_amended_accept_missing.2 (mkStorageB baseEscrowB) 3 100 7 rfl⟩

/-! ## C8 -/

/-- C8 counterexample: in the Escrow variant the owner replaces the
arbiter identity in one setProtocolArbiter call, with no acceptance
step by the successor — the claim that no single call by any party
replaces the arbiter is false there. -/
theorem C8_counterexample :
    (mkStorageB baseEscrowB).protocolArbiter = 2 ∧
    (Escrow.setProtocolArbiter (mkStorageB baseEscrowB) 1 3).toOption.map
      (fun s => s.protocolArbiter) = some 3 :=
  ⟨rfl, rfl⟩

/-- C8 (amended): in AgentEscrow the arbitrator changes only through
the two-phase handover — a nomination by the incumbent leaves the
arbitrator unchanged, the transfer happens only when the nominee itself
calls the accept step, and no escrow operation, creation, or fee, limit
or timeout setter ever changes the arbitrator or the pending nominee;
in the Escrow variant, however, the owner replaces protocolArbiter in a
single setProtocolArbiter call. -/
theorem C8_amended_two_phase :
    (∀ (s : AgentEscrow.Storage) (sender x : Nat) (s' : AgentEscrow.Storage),
      AgentEscrow.initiateArbitratorTransfer s sender x = .ok s' →
      s'.arbitrator = s.arbitrator ∧ sender = s.arbitrator ∧
        s'.pendingArbitrator = x) ∧
    (∀ (s : AgentEscrow.Storage) (sender : Nat) (s' : AgentEscrow.Storage),
      AgentEscrow.acceptArbitratorTransfer s sender = .ok s' →
      sender = s.pendingArbitrator ∧ s'.arbitrator = s.pendingArbitrator) ∧
    (∀ (s : AgentEscrow.Storage) (env : Env) (id : Nat) (op : AgentEscrow.EOp)
       (s' : AgentEscrow.Storage) (ts : List Transfer),
      AgentEscrow.applyEOp s env id op = .ok (s', ts) →
      s'.arbitrator = s.arbitrator ∧ s'.pendingArbitrator = s.pendingArbitrator) ∧
    (∀ (s : AgentEscrow.Storage) (env : Env)
       (sender value now token amount deadline ch : Nat)
       (s' : AgentEscrow.Storage) (ts : List Transfer) (id : Nat),
      AgentEscrow.createEscrow s env sender value now token amount deadline ch =
        .ok (s', ts, id) →
      s'.arbitrator = s.arbitrator ∧ s'.pendingArbitrator = s.pendingArbitrator) ∧
    (∀ (s : AgentEscrow.Storage) (sender p d : Nat) (s' : AgentEscrow.Storage),
      AgentEscrow.setFees s sender p d = .ok s' → s'.arbitrator = s.arbitrator) ∧
    (∀ (s : AgentEscrow.Storage) (sender lo hi : Nat) (s' : AgentEscrow.Storage),
      AgentEscrow.setLimits s sender lo hi = .ok s' → s'.arbitrator = s.arbitrator) ∧
    (∀ (s : AgentEscrow.Storage) (sender rp at_ : Nat) (s' : AgentEscrow.Storage),
      AgentEscrow.setTimeouts s sender rp at_ = .ok s' → s'.arbitrator = s.arbitrator) ∧
    (∀ (s : Escrow.Storage) (sender x : Nat) (s' : Escrow.Storage),
      Escrow.setProtocolArbiter s sender x = .ok s' →
      sender = s.owner ∧ s'.protocolArbiter = x) := by
  refine ⟨?_, ?_, ?_, ?_, ?_, ?_, ?_, ?_⟩
  · intro s sender x s' h
    unfold AgentEscrow.initiateArbitratorTransfer at h
    split at h
    · exact Except.noConfusion h
    · rename_i hs
      simp only [Except.ok.injEq] at h
      subst h
      exact ⟨rfl, by omega, rfl⟩
  · intro s sender s' h
    unfold AgentEscrow.acceptArbitratorTransfer at h
    split at h
    · exact Except.noConfusion h
    · rename_i hs
      simp only [Except.ok.injEq] at h
      subst h
      exact ⟨by omega, rfl⟩
  · intro s env id op s' ts h
    cases op with
    | accept sender now =>
      obtain ⟨-, -, h1, -⟩ := AgentEscrow.accept_inv h
      subst h1
      exact ⟨rfl, rfl⟩
    | submit sender now ev =>
      obtain ⟨-, -, h1, -⟩ := AgentEscrow.submit_inv h
      subst h1
      exact ⟨rfl, rfl⟩
    | release sender =>
      obtain ⟨-, -, -, h1⟩ := AgentEscrow.release_inv h
      subst h1
      exact ⟨rfl, rfl⟩
    | dispute sender value now =>
      obtain ⟨-, -, h1⟩ := @AgentEscrow.dispute_inv s env sender value now id s' ts h
      subst h1
      exact ⟨rfl, rfl⟩
    | autoRelease now =>
      obtain ⟨-, -, -, h1⟩ := AgentEscrow.autoRelease_inv h
      subst h1
      exact ⟨rfl, rfl⟩
    | resolve sender pct =>
      obtain ⟨-, -, -, h1⟩ := AgentEscrow.resolve_inv h
      subst h1
      exact ⟨rfl, rfl⟩
  · intro s env sender value now token amount deadline ch s' ts id h
    unfold AgentEscrow.createEscrow at h
    split at h
    · exact Except.noConfusion h
    split at h
    · exact Except.noConfusion h
    dsimp only at h
    split at h
    · exact Except.noConfusion h
    simp only [Except.ok.injEq, Prod.mk.injEq] at h
    obtain ⟨h1, -⟩ := h
    subst h1
    exact ⟨rfl, rfl⟩
  · intro s sender p d s' h
    unfold AgentEscrow.setFees at h
    split at h
    · exact Except.noConfusion h
    · simp only [Except.ok.injEq] at h
      subst h
      rfl
  · intro s sender lo hi s' h
    unfold AgentEscrow.setLimits at h
    split at h
    · exact Except.noConfusion h
    · simp only [Except.ok.injEq] at h
      subst h
      rfl
  · intro s sender rp at_ s' h
    unfold AgentEscrow.setTimeouts at h
    split at h
    · exact Except.noConfusion h
    · simp only [Except.ok.injEq] at h
      subst h
      rfl
  · intro s sender x s' h
    unfold Escrow.setProtocolArbiter at h
    split at h
    · exact Except.noConfusion h
    · rename_i hs
      simp only [Except.ok.injEq] at h
      subst h
      exact ⟨by omega, rfl⟩

/-- C8 witness: a concrete nomination by the incumbent leaves the
arbitrator unchanged while recording the nominee. -/
theorem C8_amended_two_phase_witness :
    ({ mkStorageA baseEscrowA with pendingArbitrator := 9 } :
        AgentEscrow.Storage).arbitrator = (mkStorageA baseEscrowA).arbitrator ∧
    (1 : Nat) = (mkStorageA baseEscrowA).arbitrator ∧
    ({ mkStorageA baseEscrowA with pendingArbitrator := 9 } :
        AgentEscrow.Storage).pendingArbitrator = 9 :=
  C8_amended_two_phase.1 (mkStorageA baseEscrowA) 1 9
    { mkStorageA baseEscrowA with pendingArbitrator := 9 } rfl

/-! ## C6 -/

/-- C6: in AgentEscrow the bool returned by IERC20.transfer and
IERC20.transferFrom is ignored (lines 168, 249, 377). Against a token
that rejects movements by returning false: release completes,
reaching Resolved with an empty transfer list (the worker payment and
the protocol fee silently never move); createEscrow creates the escrow
record while custodying nothing; dispute reaches Disputed while the
dispute fee is never collected. The Escrow variant checks the flag and
fails TransferFailed, which is what the claim requires of every path. -/
theorem C6_unchecked_erc20_movement :
    (AgentEscrow.release
        (mkStorageA { baseEscrowA with token := 9, state := .Submitted })
        envBad 5 0).toOption.map
      (fun p => (p.2, (p.1.escrows 0).state)) =
      some ([], AgentEscrow.EscrowState.Resolved) ∧
    (AgentEscrow.createEscrow (mkStorageA baseEscrowA) envBad
        5 0 10 9 1000 100000 77).toOption.map (fun r => r.2.1) = some [] ∧
    (AgentEscrow.dispute
        (mkStorageA { baseEscrowA with token := 9, state := .Submitted })
        envBad 5 0 50 0).toOption.map
      (fun p => (p.2, (p.1.escrows 0).state)) =
      some ([], AgentEscrow.EscrowState.Disputed) ∧
    Escrow._transferFunds envBad 9 6 100 = .error Escrow.Err.TransferFailed :=
  ⟨rfl, rfl, rfl, rfl⟩

/-! ## C2 -/

/-- C2 counterexample: an AgentEscrow dispute raised at call time
999999, far past submittedAt + clientReviewPeriod = 14400, still
succeeds: the source has no review-window check in dispute, while the
claim requires every such call to fail ReviewWindowElapsed. -/
theorem C2_counterexample :
    (mkStorageA { baseEscrowA with state := .Submitted }).clientReviewPeriod
        = 14400 ∧
    ({ baseEscrowA with state := .Submitted } : AgentEscrow.Escrow).submittedAt
        = 0 ∧
    (AgentEscrow.dispute (mkStorageA { baseEscrowA with state := .Submitted })
        env0 5 10 999999 0).toOption.map (fun p => (p.1.escrows 0).state) =
      some AgentEscrow.EscrowState.Disputed :=
  ⟨rfl, rfl, rfl⟩

/-- C2 (amended): raiseDispute still requires state Submitted, the
requester as caller, and (for a native-asset escrow) a paid fee equal
to disputeFee(amount); but AgentEscrow performs no review-window check
at all — the outcome of dispute is independent of the call time — and
in the Escrow variant the window check rejects only now strictly past
submitted_at + reviewWindow with ReviewPeriodActive, so the boundary
instant itself still disputes and no ReviewWindowElapsed signal exists. -/
theorem C2_amended_dispute :
    (∀ (s : AgentEscrow.Storage) (env : Env) (sender value now now' id : Nat),
      AgentEscrow.dispute s env sender value now id =
        AgentEscrow.dispute s env sender value now' id) ∧
    (∀ (s : AgentEscrow.Storage) (env : Env) (sender value now id : Nat),
      sender ≠ (s.escrows id).client →
      AgentEscrow.dispute s env sender value now id =
        .error AgentEscrow.Err.OnlyClient) ∧
    (∀ (s : AgentEscrow.Storage) (env : Env) (sender value now id : Nat),
      sender = (s.escrows id).client →
      (s.escrows id).state = AgentEscrow.EscrowState.Submitted →
      (s.escrows id).token = 0 →
      (s.escrows id).amount * s.disputeFeeBps < UMAX →
      value = AgentEscrow.pFee (s.escrows id).amount s.disputeFeeBps →
      AgentEscrow.dispute s env sender value now id =
        .ok (AgentEscrow.setEscrow s id
          { s.escrows id with state := AgentEscrow.EscrowState.Disputed },
          [⟨0, contractAddr,
            AgentEscrow.pFee (s.escrows id).amount s.disputeFeeBps⟩])) ∧
    (∀ (s : Escrow.Storage) (sender now reason id : Nat),
      (s.escrows id).client ≠ 0 →
      (s.escrows id).state = Escrow.EscrowState.SUBMITTED →
      sender = (s.escrows id).client →
      (s.escrows id).submittedAt + Escrow.REVIEW_TIMEOUT < UMAX →
      ((now ≤ (s.escrows id).submittedAt + Escrow.REVIEW_TIMEOUT →
        Escrow.dispute s sender now reason id =
          .ok (Escrow.setEscrow s id
            { s.escrows id with state := Escrow.EscrowState.DISPUTED }, [])) ∧
       ((s.escrows id).submittedAt + Escrow.REVIEW_TIMEOUT < now →
        Escrow.dispute s sender now reason id =
          .error Escrow.Err.ReviewPeriodActive))) := by
  refine ⟨?_, ?_, ?_, ?_⟩
  · intro s env sender value now now' id
    rfl
  · intro s env sender value now id hc
    unfold AgentEscrow.dispute
    rw [if_pos hc]
  · intro s env sender value now id hc hs ht hov hv
    unfold AgentEscrow.dispute
    rw [if_neg (by simp [hc]), if_neg (by simp [hs])]
    dsimp only
    unfold AgentEscrow.feeOf
    rw [if_neg (by omega)]
    dsimp only
    rw [if_pos ht, if_neg (by simp [hv])]
  · intro s sender now reason id h0 hs hc hov
    constructor
    · intro hle
      unfold Escrow.dispute
      rw [if_neg (by simp [h0]), if_neg (by simp [hs]), if_neg (by simp [hc]),
        if_neg (by omega), if_neg (by omega)]
    · intro hgt
      unfold Escrow.dispute
      rw [if_neg (by simp [h0]), if_neg (by simp [hs]), if_neg (by simp [hc]),
        if_neg (by omega), if_pos (by omega)]

/-- C2 witness: with the review window ending at 14400, a dispute at
exactly 14400 succeeds and one at 14401 fails ReviewPeriodActive in the
Escrow variant. -/
theorem C2_amended_dispute_witness :
    (Escrow.dispute (mkStorageB baseEscrowB) 5 14400 9 0).isOk = true ∧
    Escrow.dispute (mkStorageB baseEscrowB) 5 14401 9 0 =
      .error Escrow.Err.ReviewPeriodActive := by
  have h := C2_amended_dispute.2.2.2 (mkStorageB baseEscrowB) 5 14400 9 0
    (by decide) rfl rfl (by decide)
  have h2 := C2_amended_dispute.2.2.2 (mkStorageB baseEscrowB) 5 14401 9 0
    (by decide) rfl rfl (by decide)
  exact ⟨by rw [h.1 (by decide)]; rfl, h2.2 (by decide)⟩

/-! ## C3 -/

/-- C3 counterexample: in AgentEscrow the requester itself (address 5,
the client) calls accept on its own Pending escrow before the deadline
and the call succeeds, making the requester also the fulfiller — the
claim requires every accept by the requester to fail. -/
theorem C3_counterexample :
    ((mkStorageA baseEscrowA).escrows 0).client = 5 ∧
    (AgentEscrow.acceptEscrow (mkStorageA baseEscrowA) 5 10 0).toOption.map
      (fun p => ((p.1.escrows 0).worker, (p.1.escrows 0).state)) =
      some (5, AgentEscrow.EscrowState.Active) :=
  ⟨rfl, rfl⟩

/-- C3 (amended): AgentEscrow.acceptEscrow has no caller identity check
at all — for every caller, including the requester, it succeeds exactly
when the state is Pending and now < deadline, setting fulfiller :=
caller and state := Active, and fails DeadlinePassed when deadline ≤
now; in the Escrow variant only the worker fixed at creation (distinct
from the requester by a creation-time check) may accept, and the
deadline comparison there admits the boundary instant now = deadline. -/
theorem C3_amended_accept :
    (∀ (s : AgentEscrow.Storage) (sender now id : Nat),
      (s.escrows id).state = AgentEscrow.EscrowState.Pending →
      ((now < (s.escrows id).deadline →
        AgentEscrow.acceptEscrow s sender now id =
          .ok (AgentEscrow.setEscrow s id
            { s.escrows id with
                worker := sender
                state := AgentEscrow.EscrowState.Active }, [])) ∧
       ((s.escrows id).deadline ≤ now →
        AgentEscrow.acceptEscrow s sender now id =
          .error AgentEscrow.Err.DeadlinePassed))) ∧
    (∀ (s : Escrow.Storage) (sender now id : Nat),
      (s.escrows id).client ≠ 0 →
      (s.escrows id).state = Escrow.EscrowState.PENDING →
      ((sender ≠ (s.escrows id).worker →
        Escrow.acceptEscrow s sender now id = .error Escrow.Err.NotAuthorized) ∧
       (sender = (s.escrows id).worker → now ≤ (s.escrows id).deadline →
        Escrow.acceptEscrow s sender now id =
          .ok (Escrow.setEscrow s id
            { s.escrows id with state := Escrow.EscrowState.ACTIVE }, [])) ∧
       (sender = (s.escrows id).worker → (s.escrows id).deadline < now →
        Escrow.acceptEscrow s sender now id =
          .error Escrow.Err.DeadlinePassed))) := by
  constructor
  · intro s sender now id hst
    constructor
    · intro hd
      unfold AgentEscrow.acceptEscrow
      rw [if_neg (by simp [hst]), if_neg (by omega)]
    · intro hd
      unfold AgentEscrow.acceptEscrow
      rw [if_neg (by simp [hst]), if_pos hd]
  · intro s sender now id h0 hst
    refine ⟨?_, ?_, ?_⟩
    · intro hw
      unfold Escrow.acceptEscrow
      rw [if_neg (by simp [h0]), if_neg (by simp [hst]), if_pos hw]
    · intro hw hd
      unfold Escrow.acceptEscrow
      rw [if_neg (by simp [h0]), if_neg (by simp [hst]), if_neg (by simp [hw]),
        if_neg (by omega)]
    · intro hw hd
      unfold Escrow.acceptEscrow
      rw [if_neg (by simp [h0]), if_neg (by simp [hst]), if_neg (by simp [hw]),
        if_pos hd]

/-- C3 witness: the amended theorem applied to the requester accepting
its own escrow in AgentEscrow, and to the designated worker accepting at
the boundary instant in the Escrow variant. -/
theorem C3_amended_accept_witness :
    (AgentEscrow.acceptEscrow (mkStorageA baseEscrowA) 5 10 0).isOk = true ∧
    (Escrow.acceptEscrow
      (mkStorageB { baseEscrowB with state := Escrow.EscrowState.PENDING })
      6 100000 0).isOk = true := by
  have h1 := (C3_amended_accept.1 (mkStorageA baseEscrowA) 5 10 0 rfl).1
    (by decide)
  have h2 := ((C3_amended_accept.2
      (mkStorageB { baseEscrowB with state := Escrow.EscrowState.PENDING })
      6 100000 0 (by decide) rfl).2.1) rfl (by decide)
  exact ⟨by rw [h1]; rfl, by rw [h2]; rfl⟩

/-! ## C10 -/

namespace AgentEscrow

lemma mulPct_le (d pct : Nat) (h : pct ≤ 100) : d * pct / 100 ≤ d := by
  calc d * pct / 100 ≤ d * 100 / 100 :=
        Nat.div_le_div_right (Nat.mul_le_mul_left d h)
    _ = d := Nat.mul_div_cancel d (by omega)

lemma release_no_underflow (s : Storage) (env : Env) (sender id : Nat)
    (hbps : s.protocolFeeBps ≤ 10000) :
    release s env sender id ≠ .error .Underflow := by
  intro h
  unfold release at h
  split at h
  · simp at h
  split at h
  · simp at h
  dsimp only at h
  rcases hfe : feeOf (s.escrows id).amount s.protocolFeeBps with er | pf
  all_goals rw [hfe] at h
  · have her := feeOf_error _ _ _ hfe
    subst her
    simp at h
  dsimp only at h
  split at h
  · rename_i hlt
    have hpf := feeOf_ok _ _ _ hfe
    subst hpf
    have := pFee_le (s.escrows id).amount s.protocolFeeBps hbps
    omega
  split at h
  · rename_i heq
    have her := transfer_error _ _ _ _ _ heq
    subst her
    simp at h
  split at h
  · rename_i heq
    have her := transfer_error _ _ _ _ _ heq
    subst her
    simp at h
  simp at h

lemma autoRelease_no_underflow (s : Storage) (env : Env) (now id : Nat)
    (hbps : s.protocolFeeBps ≤ 10000) :
    autoRelease s env now id ≠ .error .Underflow := by
  intro h
  unfold autoRelease at h
  split at h
  · simp at h
  dsimp only at h
  split at h
  · simp at h
  split at h
  · simp at h
  rcases hfe : feeOf (s.escrows id).amount s.protocolFeeBps with er | pf
  all_goals rw [hfe] at h
  · have her := feeOf_error _ _ _ hfe
    subst her
    simp at h
  dsimp only at h
  split at h
  · rename_i hlt
    have hpf := feeOf_ok _ _ _ hfe
    subst hpf
    have := pFee_le (s.escrows id).amount s.protocolFeeBps hbps
    omega
  split at h
  · rename_i heq
    have her := transfer_error _ _ _ _ _ heq
    subst her
    simp at h
  split at h
  · rename_i heq
    have her := transfer_error _ _ _ _ _ heq
    subst her
    simp at h
  simp at h

lemma resolve_no_underflow (s : Storage) (env : Env) (sender id pct : Nat)
    (hbps : s.protocolFeeBps ≤ 10000) :
    resolve s env sender id pct ≠ .error .Underflow := by
  intro h
  unfold resolve at h
  split at h
  · simp at h
  split at h
  · simp at h
  split at h
  · simp at h
  rename_i ha hs hp
  dsimp only at h
  rcases hfe : feeOf (s.escrows id).amount s.protocolFeeBps with er | pf
  all_goals rw [hfe] at h
  · have her := feeOf_error _ _ _ hfe
    subst her
    simp at h
  dsimp only at h
  split at h
  · rename_i hlt
    have hpf := feeOf_ok _ _ _ hfe
    subst hpf
    have := pFee_le (s.escrows id).amount s.protocolFeeBps hbps
    omega
  split at h
  · simp at h
  split at h
  · rename_i hlt2
    have := mulPct_le ((s.escrows id).amount - pf) pct (by omega)
    omega
  rcases hdf : feeOf (s.escrows id).amount s.disputeFeeBps with er | df
  all_goals rw [hdf] at h
  · have her := feeOf_error _ _ _ hdf
    subst her
    simp at h
  dsimp only at h
  split at h
  · rename_i heq
    split at heq
    · have her := transfer_error _ _ _ _ _ heq
      subst her
      simp at h
    · simp at heq
  split at h
  · rename_i heq
    split at heq
    · have her := transfer_error _ _ _ _ _ heq
      subst her
      simp at h
    · simp at heq
  split at h
  · rename_i heq
    split at heq
    all_goals {
      have her := transfer_error _ _ _ _ _ heq
      subst her
      simp at h }
  split at h
  · rename_i heq
    have her := transfer_error _ _ _ _ _ heq
    subst her
    simp at h
  simp at h

end AgentEscrow

/-- C10: with protocolFeeBps ≤ 10000 the computed protocol fee
floor(amount * protocolFeeBps / 10000) never exceeds amount, so the
subtraction amount - protocolFee inside release, autoRelease and
resolve never underflows (none of them can return the Underflow
panic); and setFees enforces no upper bound whatsoever — the
arbitrator can set any fee values — so this arithmetic precondition is
the only protection the payout paths have. -/
theorem C10_fee_bound_no_underflow :
    (∀ (amount bps : Nat), bps ≤ 10000 →
      AgentEscrow.pFee amount bps ≤ amount) ∧
    (∀ (s : AgentEscrow.Storage) (env : Env) (sender id : Nat),
      s.protocolFeeBps ≤ 10000 →
      AgentEscrow.release s env sender id ≠ .error AgentEscrow.Err.Underflow) ∧
    (∀ (s : AgentEscrow.Storage) (env : Env) (now id : Nat),
      s.protocolFeeBps ≤ 10000 →
      AgentEscrow.autoRelease s env now id ≠ .error AgentEscrow.Err.Underflow) ∧
    (∀ (s : AgentEscrow.Storage) (env : Env) (sender id pct : Nat),
      s.protocolFeeBps ≤ 10000 →
      AgentEscrow.resolve s env sender id pct ≠
        .error AgentEscrow.Err.Underflow) ∧
    (∀ (s : AgentEscrow.Storage) (p d : Nat),
      AgentEscrow.setFees s s.arbitrator p d =
        .ok { s with protocolFeeBps := p, disputeFeeBps := d }) := by
  refine ⟨?_, ?_, ?_, ?_, ?_⟩
  · exact fun amount bps h => AgentEscrow.pFee_le amount bps h
  · exact fun s env sender id h => AgentEscrow.release_no_underflow s env sender id h
  · exact fun s env now id h => AgentEscrow.autoRelease_no_underflow s env now id h
  · exact fun s env sender id pct h =>
      AgentEscrow.resolve_no_underflow s env sender id pct h
  · intro s p d
    unfold AgentEscrow.setFees
    rw [if_neg (by simp)]

/-- C10 witness: the theorem applied at concrete inputs — a 1 percent
fee on 1000 keeps the fee below the amount, the concrete payout calls
do not underflow, and setFees accepts an unbounded 2000000 bps rate. -/
theorem C10_fee_bound_no_underflow_witness :
    AgentEscrow.pFee 1000 100 ≤ 1000 ∧
    AgentEscrow.release (mkStorageA { baseEscrowA with state := .Submitted })
        env0 5 0 ≠ .error AgentEscrow.Err.Underflow ∧
    AgentEscrow.setFees (mkStorageA baseEscrowA) 1 2000000 3000000 =
      .ok { mkStorageA baseEscrowA with
              protocolFeeBps := 2000000, disputeFeeBps := 3000000 } :=
  ⟨C10_fee_bound_no_underflow.1 1000 100 (by decide),
   C10_fee_bound_no_underflow.2.1 (mkStorageA { baseEscrowA with state := .Submitted })
     env0 5 0 (by decide),
   C10_fee_bound_no_underflow.2.2.2.2 (mkStorageA baseEscrowA) 2000000 3000000⟩

/-! ## C4 -/

/-- C4 counterexample: in the Escrow variant, at the boundary instant
now = submittedAt + REVIEW_TIMEOUT the worker's claimExpiredEscrow
fails ReviewPeriodActive (the source demands strictly-after), and a
caller other than the fulfiller fails NotAuthorized even long after the
window — the claim requires success for any caller at any
now ≥ submitted_at + reviewWindow, including the boundary. -/
theorem C4_counterexample :
    baseEscrowB.state = Escrow.EscrowState.SUBMITTED ∧
    baseEscrowB.submittedAt = 0 ∧
    Escrow.claimExpiredEscrow (mkStorageB baseEscrowB) env0 6
      (0 + Escrow.REVIEW_TIMEOUT) 0 = .error Escrow.Err.ReviewPeriodActive ∧
    Escrow.claimExpiredEscrow (mkStorageB baseEscrowB) env0 9 999999 0 =
      .error Escrow.Err.NotAuthorized :=
  ⟨rfl, rfl, rfl, rfl⟩

/-- C4 (amended): AgentEscrow.autoRelease behaves as the claim says —
permissionless, failing ReviewPeriodActive before
submittedAt + clientReviewPeriod and succeeding from the boundary
instant on, paying amount - protocolFee to the fulfiller and
protocolFee to the fee sink; the Escrow variant's claimExpiredEscrow
instead requires the caller to be the fulfiller, requires now strictly
past submittedAt + REVIEW_TIMEOUT (the boundary instant fails
ReviewPeriodActive), and then pays the full amount to the fulfiller
with no protocol fee. -/
theorem C4_amended_forceRelease :
    (∀ (s : AgentEscrow.Storage) (env : Env) (now id : Nat),
      (s.escrows id).state = AgentEscrow.EscrowState.Submitted →
      (s.escrows id).submittedAt + s.clientReviewPeriod < UMAX →
      ((now < (s.escrows id).submittedAt + s.clientReviewPeriod →
        AgentEscrow.autoRelease s env now id =
          .error AgentEscrow.Err.ReviewPeriodActive) ∧
       ((∀ a, env.ethCallOk a = true) → (∀ t a, env.erc20Ok t a = true) →
        (s.escrows id).submittedAt + s.clientReviewPeriod ≤ now →
        (s.escrows id).amount * s.protocolFeeBps < UMAX →
        AgentEscrow.pFee (s.escrows id).amount s.protocolFeeBps ≤
          (s.escrows id).amount →
        AgentEscrow.autoRelease s env now id =
          .ok (AgentEscrow.setEscrow s id
            { s.escrows id with
                state := AgentEscrow.EscrowState.Resolved
                outcome := AgentEscrow.Outcome.FullRelease
                completionPct := 100 },
            (if (s.escrows id).amount -
                AgentEscrow.pFee (s.escrows id).amount s.protocolFeeBps = 0
              then []
              else [⟨(s.escrows id).token, (s.escrows id).worker,
                (s.escrows id).amount -
                  AgentEscrow.pFee (s.escrows id).amount s.protocolFeeBps⟩]) ++
            (if AgentEscrow.pFee (s.escrows id).amount s.protocolFeeBps = 0
              then []
              else [⟨(s.escrows id).token, s.arbitrator,
                AgentEscrow.pFee (s.escrows id).amount s.protocolFeeBps⟩]))))) ∧
    (∀ (s : Escrow.Storage) (env : Env) (sender now id : Nat),
      (s.escrows id).client ≠ 0 →
      (s.escrows id).state = Escrow.EscrowState.SUBMITTED →
      ((sender ≠ (s.escrows id).worker →
        Escrow.claimExpiredEscrow s env sender now id =
          .error Escrow.Err.NotAuthorized) ∧
       (sender = (s.escrows id).worker →
        (s.escrows id).submittedAt + Escrow.REVIEW_TIMEOUT < UMAX →
        now ≤ (s.escrows id).submittedAt + Escrow.REVIEW_TIMEOUT →
        Escrow.claimExpiredEscrow s env sender now id =
          .error Escrow.Err.ReviewPeriodActive) ∧
       (sender = (s.escrows id).worker →
        (s.escrows id).submittedAt + Escrow.REVIEW_TIMEOUT < UMAX →
        (s.escrows id).submittedAt + Escrow.REVIEW_TIMEOUT < now →
        (∀ a, env.ethCallOk a = true) → (∀ t a, env.erc20Ok t a = true) →
        Escrow.claimExpiredEscrow s env sender now id =
          .ok (Escrow.setEscrow s id
            { s.escrows id with state := Escrow.EscrowState.RESOLVED },
            [⟨(s.escrows id).token, (s.escrows id).worker,
              (s.escrows id).amount⟩])))) := by
  constructor
  · intro s env now id hst hov
    constructor
    · intro hlt
      unfold AgentEscrow.autoRelease
      rw [if_neg (by simp [hst])]
      dsimp only
      rw [if_neg (by omega), if_pos hlt]
    · intro heth herc hge hov2 hle
      unfold AgentEscrow.autoRelease
      rw [if_neg (by simp [hst])]
      dsimp only
      rw [if_neg (by omega), if_neg (by omega)]
      unfold AgentEscrow.feeOf
      rw [if_neg (by omega)]
      dsimp only
      rw [if_neg (by simp only [AgentEscrow.pFee] at hle ⊢; omega)]
      rw [AgentEscrow.transfer_honest env heth herc,
        AgentEscrow.transfer_honest env heth herc]
  · intro s env sender now id h0 hst
    refine ⟨?_, ?_, ?_⟩
    · intro hw
      unfold Escrow.claimExpiredEscrow
      rw [if_neg (by simp [h0]), if_neg (by simp [hst]), if_pos hw]
    · intro hw hov hle
      unfold Escrow.claimExpiredEscrow
      rw [if_neg (by simp [h0]), if_neg (by simp [hst]), if_neg (by simp [hw]),
        if_neg (by omega), if_pos hle]
    · intro hw hov hgt heth herc
      unfold Escrow.claimExpiredEscrow
      rw [if_neg (by simp [h0]), if_neg (by simp [hst]), if_neg (by simp [hw]),
        if_neg (by omega), if_neg (by omega)]
      dsimp only
      rw [Escrow.transferFunds_honest env heth herc]

/-- C4 witness: at the boundary instant 14400 the AgentEscrow
autoRelease succeeds (paying 990 to the fulfiller and 10 to the fee
sink), and one second earlier it fails ReviewPeriodActive. -/
theorem C4_amended_forceRelease_witness :
    AgentEscrow.autoRelease
        (mkStorageA { baseEscrowA with state := .Submitted }) env0 14399 0 =
      .error AgentEscrow.Err.ReviewPeriodActive ∧
    (AgentEscrow.autoRelease
        (mkStorageA { baseEscrowA with state := .Submitted }) env0 14400 0
      ).toOption.map (fun p => p.2) =
      some [⟨0, 6, 990⟩, ⟨0, 1, 10⟩] := by
  have h := C4_amended_forceRelease.1
    (mkStorageA { baseEscrowA with state := .Submitted }) env0 14400 0 rfl
    (by decide)
  have h1 := C4_amended_forceRelease.1
    (mkStorageA { baseEscrowA with state := .Submitted }) env0 14399 0 rfl
    (by decide)
  refine ⟨h1.1 (by decide), ?_⟩
  rw [h.2 (fun a => rfl) (fun t a => rfl) (by decide) (by decide) (by decide)]
  rfl

/-! ## Transfer-list arithmetic helpers and the honest-environment
characterization of resolve -/

lemma sumT_append (a b : List Transfer) : sumT (a ++ b) = sumT a + sumT b := by
  simp [sumT]

lemma sumT_guard (x tok d : Nat) :
    sumT (if 0 < x then [⟨tok, d, x⟩] else []) = x := by
  by_cases hx : 0 < x <;> simp [sumT, hx] <;> omega

lemma paidTo_append (a b : List Transfer) (w : Nat) :
    paidTo (a ++ b) w = paidTo a w + paidTo b w := by
  simp [paidTo, List.filter_append]

lemma paidTo_guard (x tok d w : Nat) :
    paidTo (if 0 < x then [⟨tok, d, x⟩] else []) w =
      if d = w then x else 0 := by
  by_cases hx : 0 < x <;> by_cases hd : d = w <;>
    simp [paidTo, hx, hd] <;> omega

namespace AgentEscrow

/-- the worker share of line 297, distributable * completionPct / 100. -/
def wSplit (distributable pct : Nat) : Nat := distributable * pct / 100

lemma listGuard_eq (x : Nat) (t : Transfer) :
    (if 0 < x then (if x = 0 then ([] : List Transfer) else [t]) else []) =
    (if 0 < x then [t] else []) := by
  by_cases hx : 0 < x
  · simp [hx, Nat.pos_iff_ne_zero.mp hx]
  · simp [hx]

lemma feeGuard_eq (pct df tok w c : Nat) :
    (if 50 ≤ pct then (if df = 0 then ([] : List Transfer) else [⟨tok, w, df⟩])
     else (if df = 0 then [] else [⟨tok, c, df⟩])) =
    (if 0 < df then [⟨tok, (if 50 ≤ pct then w else c), df⟩] else []) := by
  by_cases hp : 50 ≤ pct <;> by_cases hd : df = 0 <;>
    simp [hp, hd, Nat.pos_iff_ne_zero]

lemma negGuard_eq (x : Nat) (t : Transfer) :
    (if x = 0 then ([] : List Transfer) else [t]) =
    (if 0 < x then [t] else []) := by
  by_cases hx : x = 0 <;> simp [hx, Nat.pos_iff_ne_zero]

/-- exact effect of a successful resolve against an honest token
world: the guards passed and the transfer list is the worker share,
the client refund, the dispute fee to the threshold winner and the
protocol fee, in the order of lines 316-330. -/
lemma resolve_spec {s : Storage} {env : Env} {sender id pct : Nat}
    {s' : Storage} {ts : List Transfer}
    (heth : ∀ a, env.ethCallOk a = true)
    (herc : ∀ t a, env.erc20Ok t a = true)
    (h : resolve s env sender id pct = .ok (s', ts)) :
    pct ≤ 100 ∧
    pFee (s.escrows id).amount s.protocolFeeBps ≤ (s.escrows id).amount ∧
    ts =
      (if 0 < ((s.escrows id).amount -
            pFee (s.escrows id).amount s.protocolFeeBps) * pct / 100 then
        [⟨(s.escrows id).token, (s.escrows id).worker,
          ((s.escrows id).amount -
            pFee (s.escrows id).amount s.protocolFeeBps) * pct / 100⟩]
       else []) ++
      (if 0 < ((s.escrows id).amount -
            pFee (s.escrows id).amount s.protocolFeeBps) -
          ((s.escrows id).amount -
            pFee (s.escrows id).amount s.protocolFeeBps) * pct / 100 then
        [⟨(s.escrows id).token, (s.escrows id).client,
          ((s.escrows id).amount -
            pFee (s.escrows id).amount s.protocolFeeBps) -
          ((s.escrows id).amount -
            pFee (s.escrows id).amount s.protocolFeeBps) * pct / 100⟩]
       else []) ++
      (if 0 < pFee (s.escrows id).amount s.disputeFeeBps then
        [⟨(s.escrows id).token,
          (if 50 ≤ pct then (s.escrows id).worker else (s.escrows id).client),
          pFee (s.escrows id).amount s.disputeFeeBps⟩]
       else []) ++
      (if 0 < pFee (s.escrows id).amount s.protocolFeeBps then
        [⟨(s.escrows id).token, s.arbitrator,
          pFee (s.escrows id).amount s.protocolFeeBps⟩]
       else []) := by
  unfold resolve at h
  split at h
  · exact Except.noConfusion h
  split at h
  · exact Except.noConfusion h
  split at h
  · exact Except.noConfusion h
  rename_i ha hs hp
  dsimp only at h
  rcases hfe : feeOf (s.escrows id).amount s.protocolFeeBps with er | pf
  all_goals rw [hfe] at h
  · exact Except.noConfusion h
  have hpf := feeOf_ok _ _ _ hfe
  subst hpf
  dsimp only at h
  split at h
  · exact Except.noConfusion h
  rename_i hpfle
  split at h
  · exact Except.noConfusion h
  split at h
  · exact Except.noConfusion h
  rename_i hov2 hwle
  rcases hdf : feeOf (s.escrows id).amount s.disputeFeeBps with er | df
  all_goals rw [hdf] at h
  · exact Except.noConfusion h
  have hdfv := feeOf_ok _ _ _ hdf
  subst hdfv
  try dsimp only at h
  simp only [transfer_honest env heth herc] at h
  simp only [← apply_ite
    (Except.ok : List Transfer → Except Err (List Transfer))] at h
  try dsimp only at h
  simp only [Except.ok.injEq, Prod.mk.injEq] at h
  obtain ⟨-, hts⟩ := h
  refine ⟨by omega, by omega, ?_⟩
  rw [← hts, listGuard_eq, listGuard_eq, feeGuard_eq, negGuard_eq]

end AgentEscrow

namespace Escrow

set_option maxHeartbeats 2000000 in
/-- exact effect of a successful resolveDispute against an honest
token world: the 5 percent arbiter fee, the worker share and the
client remainder, in the transfer order of lines 324-333. -/
lemma resolveDispute_spec {s : Storage} {env : Env} {sender id pct : Nat}
    {s' : Storage} {ts : List Transfer}
    (heth : ∀ a, env.ethCallOk a = true)
    (herc : ∀ t a, env.erc20Ok t a = true)
    (h : resolveDispute s env sender id pct = .ok (s', ts)) :
    pct ≤ 100 ∧
    (s.escrows id).amount * ARBITER_FEE_BPS / BPS_DENOMINATOR ≤
      (s.escrows id).amount ∧
    ts =
      (if 0 < (s.escrows id).amount * ARBITER_FEE_BPS / BPS_DENOMINATOR then
        [⟨(s.escrows id).token, (s.escrows id).arbiter,
          (s.escrows id).amount * ARBITER_FEE_BPS / BPS_DENOMINATOR⟩]
       else []) ++
      (if 0 < ((s.escrows id).amount -
            (s.escrows id).amount * ARBITER_FEE_BPS / BPS_DENOMINATOR) *
          pct / 100 then
        [⟨(s.escrows id).token, (s.escrows id).worker,
          ((s.escrows id).amount -
            (s.escrows id).amount * ARBITER_FEE_BPS / BPS_DENOMINATOR) *
          pct / 100⟩]
       else []) ++
      (if 0 < ((s.escrows id).amount -
            (s.escrows id).amount * ARBITER_FEE_BPS / BPS_DENOMINATOR) -
          ((s.escrows id).amount -
            (s.escrows id).amount * ARBITER_FEE_BPS / BPS_DENOMINATOR) *
          pct / 100 then
        [⟨(s.escrows id).token, (s.escrows id).client,
          ((s.escrows id).amount -
            (s.escrows id).amount * ARBITER_FEE_BPS / BPS_DENOMINATOR) -
          ((s.escrows id).amount -
            (s.escrows id).amount * ARBITER_FEE_BPS / BPS_DENOMINATOR) *
          pct / 100⟩]
       else []) := by
  unfold resolveDispute at h
  split at h
  · exact Except.noConfusion h
  split at h
  · exact Except.noConfusion h
  split at h
  · exact Except.noConfusion h
  split at h
  · exact Except.noConfusion h
  rename_i ha h0 hs hp
  dsimp only at h
  split at h
  · exact Except.noConfusion h
  split at h
  · exact Except.noConfusion h
  rename_i hov hfle
  split at h
  · exact Except.noConfusion h
  split at h
  · exact Except.noConfusion h
  rename_i hov2 hwle
  simp only [transferFunds_honest env heth herc] at h
  simp only [← apply_ite
    (Except.ok : List Transfer → Except Err (List Transfer))] at h
  try dsimp only at h
  simp only [Except.ok.injEq, Prod.mk.injEq] at h
  obtain ⟨-, hts⟩ := h
  exact ⟨by omega, by omega, hts.symm⟩

end Escrow

/-! ## C1 -/

/-- C1: whenever resolve of a disputed AgentEscrow escrow succeeds
(against an honest token world), the computed split conserves value
exactly under floor arithmetic — fulfillerAmount + requesterAmount +
protocolFee = amount — and the total actually disbursed equals amount
plus the dispute-fee payment, floor(amount * disputeFeeBps / 10000),
that raiseDispute collected (the fee rates being read live, the two
coincide exactly when the rates are unchanged between dispute and
resolve, which is the hypothesis of the claim); the dispute fee itself
is a single transfer to one recipient. In the Escrow variant, which
collects no dispute fee, a successful resolveDispute disburses exactly
amount. -/
theorem C1_resolve_conservation :
    (∀ (s : AgentEscrow.Storage) (env : Env) (sender id pct : Nat)
       (s' : AgentEscrow.Storage) (ts : List Transfer),
      (∀ a, env.ethCallOk a = true) → (∀ t a, env.erc20Ok t a = true) →
      AgentEscrow.resolve s env sender id pct = .ok (s', ts) →
      (AgentEscrow.wSplit ((s.escrows id).amount -
          AgentEscrow.pFee (s.escrows id).amount s.protocolFeeBps) pct +
        (((s.escrows id).amount -
            AgentEscrow.pFee (s.escrows id).amount s.protocolFeeBps) -
          AgentEscrow.wSplit ((s.escrows id).amount -
            AgentEscrow.pFee (s.escrows id).amount s.protocolFeeBps) pct) +
        AgentEscrow.pFee (s.escrows id).amount s.protocolFeeBps =
        (s.escrows id).amount) ∧
      sumT ts = (s.escrows id).amount +
        AgentEscrow.pFee (s.escrows id).amount s.disputeFeeBps) ∧
    (∀ (s : Escrow.Storage) (env : Env) (sender id pct : Nat)
       (s' : Escrow.Storage) (ts : List Transfer),
      (∀ a, env.ethCallOk a = true) → (∀ t a, env.erc20Ok t a = true) →
      Escrow.resolveDispute s env sender id pct = .ok (s', ts) →
      sumT ts = (s.escrows id).amount) := by
  constructor
  · intro s env sender id pct s' ts heth herc h
    obtain ⟨hp, hpf, hts⟩ := AgentEscrow.resolve_spec heth herc h
    have hw := AgentEscrow.mulPct_le
      ((s.escrows id).amount -
        AgentEscrow.pFee (s.escrows id).amount s.protocolFeeBps) pct hp
    constructor
    · simp only [AgentEscrow.wSplit]
      omega
    · rw [hts, sumT_append, sumT_append, sumT_append, sumT_guard, sumT_guard,
        sumT_guard, sumT_guard]
      omega
  · intro s env sender id pct s' ts heth herc h
    obtain ⟨hp, hpf, hts⟩ := Escrow.resolveDispute_spec heth herc h
    have hw := AgentEscrow.mulPct_le
      ((s.escrows id).amount -
        (s.escrows id).amount * Escrow.ARBITER_FEE_BPS /
          Escrow.BPS_DENOMINATOR) pct hp
    rw [hts, sumT_append, sumT_append, sumT_guard, sumT_guard, sumT_guard]
    omega

/-- the disputed 1000-unit escrow of the spec scenario. -/
def disputedStorageA : AgentEscrow.Storage :=
  mkStorageA { baseEscrowA with state := AgentEscrow.EscrowState.Disputed }

/-- its resolved form after resolve(70). -/
def resolvedStorageA : AgentEscrow.Storage :=
  AgentEscrow.setEscrow disputedStorageA 0
    { client := 5, worker := 6, token := 0, amount := 1000, deadline := 100000,
      criteriaHash := 77, state := AgentEscrow.EscrowState.Resolved,
      outcome := AgentEscrow.Outcome.Partial, completionPct := 70,
      createdAt := 1, submittedAt := 0, evidenceHash := 0 }

/-- C1 witness: the 1000-unit disputed escrow of the spec scenario,
resolved at 70 percent with 1 percent fees: the split 693 + 297 + 10
conserves 1000 and the four transfers total 1010 = 1000 + 10. -/
theorem C1_resolve_conservation_witness :
    (693 + (990 - 693) + 10 = 1000 ∧
      sumT [⟨0, 6, 693⟩, ⟨0, 5, 297⟩, ⟨0, 6, 10⟩, ⟨0, 1, 10⟩] = 1000 + 10) := by
  have h := C1_resolve_conservation.1 disputedStorageA env0 1 0 70
    resolvedStorageA [⟨0, 6, 693⟩, ⟨0, 5, 297⟩, ⟨0, 6, 10⟩, ⟨0, 1, 10⟩]
    (fun a => rfl) (fun t a => rfl) rfl
  simpa [AgentEscrow.wSplit, AgentEscrow.pFee, disputedStorageA, mkStorageA,
    baseEscrowA] using h

/-! ## C5 -/

/-- C5: in every successful resolve of a disputed AgentEscrow escrow
(honest token world, the three payout identities distinct), the whole
dispute fee floor(amount * disputeFeeBps / 10000) is paid to the
fulfiller exactly when completionPct ≥ 50 and to the requester exactly
when completionPct < 50, on top of their respective shares of the
split — the threshold is exactly 50 and the fee is never divided. -/
theorem C5_dispute_fee_threshold :
    ∀ (s : AgentEscrow.Storage) (env : Env) (sender id pct : Nat)
      (s' : AgentEscrow.Storage) (ts : List Transfer),
      (∀ a, env.ethCallOk a = true) → (∀ t a, env.erc20Ok t a = true) →
      (s.escrows id).worker ≠ (s.escrows id).client →
      (s.escrows id).worker ≠ s.arbitrator →
      (s.escrows id).client ≠ s.arbitrator →
      AgentEscrow.resolve s env sender id pct = .ok (s', ts) →
      ((50 ≤ pct →
        paidTo ts (s.escrows id).worker =
          AgentEscrow.wSplit ((s.escrows id).amount -
            AgentEscrow.pFee (s.escrows id).amount s.protocolFeeBps) pct +
          AgentEscrow.pFee (s.escrows id).amount s.disputeFeeBps ∧
        paidTo ts (s.escrows id).client =
          ((s.escrows id).amount -
            AgentEscrow.pFee (s.escrows id).amount s.protocolFeeBps) -
          AgentEscrow.wSplit ((s.escrows id).amount -
            AgentEscrow.pFee (s.escrows id).amount s.protocolFeeBps) pct) ∧
       (pct < 50 →
        paidTo ts (s.escrows id).worker =
          AgentEscrow.wSplit ((s.escrows id).amount -
            AgentEscrow.pFee (s.escrows id).amount s.protocolFeeBps) pct ∧
        paidTo ts (s.escrows id).client =
          (((s.escrows id).amount -
            AgentEscrow.pFee (s.escrows id).amount s.protocolFeeBps) -
          AgentEscrow.wSplit ((s.escrows id).amount -
            AgentEscrow.pFee (s.escrows id).amount s.protocolFeeBps) pct) +
          AgentEscrow.pFee (s.escrows id).amount s.disputeFeeBps)) := by
  intro s env sender id pct s' ts heth herc hwc hwa hca h
  obtain ⟨hp, hpf, hts⟩ := AgentEscrow.resolve_spec heth herc h
  constructor
  · intro h50
    constructor
    · simp only [AgentEscrow.wSplit]
      rw [hts, paidTo_append, paidTo_append, paidTo_append, paidTo_guard,
        paidTo_guard, paidTo_guard, paidTo_guard]
      simp [h50, Ne.symm hwc, Ne.symm hwa]
    · simp only [AgentEscrow.wSplit]
      rw [hts, paidTo_append, paidTo_append, paidTo_append, paidTo_guard,
        paidTo_guard, paidTo_guard, paidTo_guard]
      simp [h50, hwc, Ne.symm hca]
  · intro h50
    constructor
    · simp only [AgentEscrow.wSplit]
      rw [hts, paidTo_append, paidTo_append, paidTo_append, paidTo_guard,
        paidTo_guard, paidTo_guard, paidTo_guard]
      simp [Nat.not_le.mpr h50, Ne.symm hwc, Ne.symm hwa]
    · simp only [AgentEscrow.wSplit]
      rw [hts, paidTo_append, paidTo_append, paidTo_append, paidTo_guard,
        paidTo_guard, paidTo_guard, paidTo_guard]
      simp [Nat.not_le.mpr h50, hwc, Ne.symm hca]

/-- C5 witness: in the concrete resolve(70) scenario the fulfiller is
paid 693 + 10 (its split plus the whole fee) and the requester 297;
had the percentage been below 50 the fee side would flip. -/
theorem C5_dispute_fee_threshold_witness :
    paidTo [⟨0, 6, 693⟩, ⟨0, 5, 297⟩, ⟨0, 6, 10⟩, ⟨0, 1, 10⟩] 6 = 693 + 10 ∧
    paidTo [⟨0, 6, 693⟩, ⟨0, 5, 297⟩, ⟨0, 6, 10⟩, ⟨0, 1, 10⟩] 5 = 297 := by
  have h := (C5_dispute_fee_threshold disputedStorageA env0 1 0 70
    resolvedStorageA [⟨0, 6, 693⟩, ⟨0, 5, 297⟩, ⟨0, 6, 10⟩, ⟨0, 1, 10⟩]
    (fun a => rfl) (fun t a => rfl) (by decide) (by decide) (by decide) rfl).1
    (by decide)
  simpa [AgentEscrow.wSplit, AgentEscrow.pFee, disputedStorageA, mkStorageA,
    baseEscrowA] using h

/-! ## C7 -/

/-- C7 counterexample: on an AgentEscrow escrow already in the terminal
state Resolved, submitWork called by a stranger (address 9, not the
fulfiller) fails with the authorization error OnlyWorker, not with a
state error: the onlyWorker modifier runs before the inState check, so
the claim that every further call fails with a state error is false as
stated. -/
theorem C7_counterexample :
    ((mkStorageA { baseEscrowA with state := .Resolved }).escrows 0).state =
      AgentEscrow.EscrowState.Resolved ∧
    AgentEscrow.submitWork
        (mkStorageA { baseEscrowA with state := .Resolved }) 9 50 0 123 =
      .error AgentEscrow.Err.OnlyWorker ∧
    AgentEscrow.Err.OnlyWorker ≠ AgentEscrow.Err.InvalidState :=
  ⟨rfl, rfl, by decide⟩

/-- C7 (amended): every successful per-escrow operation moves the
escrow along exactly one forward edge of
Pending to Active to Submitted to (Disputed to Resolved, or Resolved),
plus Pending to Cancelled in the Escrow variant, and leaves every
other escrow record untouched — no regression and no skipped state.
Once the state is terminal (Resolved; or RESOLVED or CANCELLED in the
Escrow variant), every per-escrow call fails, and it fails precisely
with InvalidState whenever the caller satisfies the operation's role
modifiers; a wrong-role caller can instead receive that role's
authorization error, because role modifiers run before the state
check. A failed call is a revert, so it moves no funds and changes no
record. -/
theorem C7_amended_monotonic_terminal :
    (∀ (s : AgentEscrow.Storage) (env : Env) (id : Nat) (op : AgentEscrow.EOp)
       (s' : AgentEscrow.Storage) (ts : List Transfer),
      AgentEscrow.applyEOp s env id op = .ok (s', ts) →
      AgentEscrow.allowedEdge (s.escrows id).state
        ((s'.escrows id).state) = true ∧
      ∀ j, j ≠ id → s'.escrows j = s.escrows j) ∧
    (∀ (s : AgentEscrow.Storage) (env : Env) (id : Nat) (op : AgentEscrow.EOp),
      (s.escrows id).state = AgentEscrow.EscrowState.Resolved →
      (AgentEscrow.applyEOp s env id op).isOk = false ∧
      (AgentEscrow.roleOk s id op →
        AgentEscrow.applyEOp s env id op =
          .error AgentEscrow.Err.InvalidState)) ∧
    (∀ (s : Escrow.Storage) (env : Env) (id : Nat) (op : Escrow.EOp)
       (s' : Escrow.Storage) (ts : List Transfer),
      Escrow.applyEOp s env id op = .ok (s', ts) →
      Escrow.allowedEdge (s.escrows id).state ((s'.escrows id).state) = true ∧
      ∀ j, j ≠ id → s'.escrows j = s.escrows j) ∧
    (∀ (s : Escrow.Storage) (env : Env) (id : Nat) (op : Escrow.EOp),
      (s.escrows id).client ≠ 0 →
      ((s.escrows id).state = Escrow.EscrowState.RESOLVED ∨
        (s.escrows id).state = Escrow.EscrowState.CANCELLED) →
      (Escrow.applyEOp s env id op).isOk = false ∧
      (Escrow.roleOk s id op →
        Escrow.applyEOp s env id op = .error Escrow.Err.InvalidState)) := by
  refine ⟨?_, ?_, ?_, ?_⟩
  · intro s env id op s' ts h
    cases op with
    | accept sender now =>
      obtain ⟨hold, -, h1, -⟩ := AgentEscrow.accept_inv h
      subst h1
      refine ⟨?_, fun j hj => AgentEscrow.setEscrow_other _ _ _ _ hj⟩
      rw [hold]
      simp [AgentEscrow.allowedEdge]
    | submit sender now ev =>
      obtain ⟨-, hold, h1, -⟩ := AgentEscrow.submit_inv h
      subst h1
      refine ⟨?_, fun j hj => AgentEscrow.setEscrow_other _ _ _ _ hj⟩
      rw [hold]
      simp [AgentEscrow.allowedEdge]
    | release sender =>
      obtain ⟨-, hold, -, h1⟩ := AgentEscrow.release_inv h
      subst h1
      refine ⟨?_, fun j hj => AgentEscrow.setEscrow_other _ _ _ _ hj⟩
      rw [hold]
      simp [AgentEscrow.allowedEdge]
    | dispute sender value now =>
      obtain ⟨-, hold, h1⟩ := @AgentEscrow.dispute_inv s env sender value now id s' ts h
      subst h1
      refine ⟨?_, fun j hj => AgentEscrow.setEscrow_other _ _ _ _ hj⟩
      rw [hold]
      simp [AgentEscrow.allowedEdge]
    | autoRelease now =>
      obtain ⟨hold, -, -, h1⟩ := AgentEscrow.autoRelease_inv h
      subst h1
      refine ⟨?_, fun j hj => AgentEscrow.setEscrow_other _ _ _ _ hj⟩
      rw [hold]
      simp [AgentEscrow.allowedEdge]
    | resolve sender pct =>
      obtain ⟨-, hold, -, h1⟩ := AgentEscrow.resolve_inv h
      subst h1
      refine ⟨?_, fun j hj => AgentEscrow.setEscrow_other _ _ _ _ hj⟩
      rw [hold]
      simp [AgentEscrow.allowedEdge]
  · intro s env id op hterm
    cases op with
    | accept sender now =>
      have he : AgentEscrow.acceptEscrow s sender now id =
          .error AgentEscrow.Err.InvalidState := by
        unfold AgentEscrow.acceptEscrow
        rw [if_pos (by simp [hterm])]
      exact ⟨by simp [AgentEscrow.applyEOp, he, Except.isOk, Except.toBool],
        fun _ => by simp [AgentEscrow.applyEOp, he, Except.isOk, Except.toBool]⟩
    | submit sender now ev =>
      refine ⟨?_, ?_⟩
      · by_cases hrole : sender = (s.escrows id).worker
        · have he : AgentEscrow.submitWork s sender now id ev =
              .error AgentEscrow.Err.InvalidState := by
            unfold AgentEscrow.submitWork
            rw [if_neg (by simp [hrole]), if_pos (by simp [hterm])]
          simp [AgentEscrow.applyEOp, he, Except.isOk, Except.toBool]
        · have he : AgentEscrow.submitWork s sender now id ev =
              .error AgentEscrow.Err.OnlyWorker := by
            unfold AgentEscrow.submitWork
            rw [if_pos hrole]
          simp [AgentEscrow.applyEOp, he, Except.isOk, Except.toBool]
      · intro hrole
        have hrole' : sender = (s.escrows id).worker := hrole
        have he : AgentEscrow.submitWork s sender now id ev =
            .error AgentEscrow.Err.InvalidState := by
          unfold AgentEscrow.submitWork
          rw [if_neg (by simp [hrole']), if_pos (by simp [hterm])]
        simp [AgentEscrow.applyEOp, he, Except.isOk, Except.toBool]
    | release sender =>
      refine ⟨?_, ?_⟩
      · by_cases hrole : sender = (s.escrows id).client
        · have he : AgentEscrow.release s env sender id =
              .error AgentEscrow.Err.InvalidState := by
            unfold AgentEscrow.release
            rw [if_neg (by simp [hrole]), if_pos (by simp [hterm])]
          simp [AgentEscrow.applyEOp, he, Except.isOk, Except.toBool]
        · have he : AgentEscrow.release s env sender id =
              .error AgentEscrow.Err.OnlyClient := by
            unfold AgentEscrow.release
            rw [if_pos hrole]
          simp [AgentEscrow.applyEOp, he, Except.isOk, Except.toBool]
      · intro hrole
        have hrole' : sender = (s.escrows id).client := hrole
        have he : AgentEscrow.release s env sender id =
            .error AgentEscrow.Err.InvalidState := by
          unfold AgentEscrow.release
          rw [if_neg (by simp [hrole']), if_pos (by simp [hterm])]
        simp [AgentEscrow.applyEOp, he, Except.isOk, Except.toBool]
    | dispute sender value now =>
      refine ⟨?_, ?_⟩
      · by_cases hrole : sender = (s.escrows id).client
        · have he : AgentEscrow.dispute s env sender value now id =
              .error AgentEscrow.Err.InvalidState := by
            unfold AgentEscrow.dispute
            rw [if_neg (by simp [hrole]), if_pos (by simp [hterm])]
          simp [AgentEscrow.applyEOp, he, Except.isOk, Except.toBool]
        · have he : AgentEscrow.dispute s env sender value now id =
              .error AgentEscrow.Err.OnlyClient := by
            unfold AgentEscrow.dispute
            rw [if_pos hrole]
          simp [AgentEscrow.applyEOp, he, Except.isOk, Except.toBool]
      · intro hrole
        have hrole' : sender = (s.escrows id).client := hrole
        have he : AgentEscrow.dispute s env sender value now id =
            .error AgentEscrow.Err.InvalidState := by
          unfold AgentEscrow.dispute
          rw [if_neg (by simp [hrole']), if_pos (by simp [hterm])]
        simp [AgentEscrow.applyEOp, he, Except.isOk, Except.toBool]
    | autoRelease now =>
      have he : AgentEscrow.autoRelease s env now id =
          .error AgentEscrow.Err.InvalidState := by
        unfold AgentEscrow.autoRelease
        rw [if_pos (by simp [hterm])]
      exact ⟨by simp [AgentEscrow.applyEOp, he, Except.isOk, Except.toBool],
        fun _ => by simp [AgentEscrow.applyEOp, he, Except.isOk, Except.toBool]⟩
    | resolve sender pct =>
      refine ⟨?_, ?_⟩
      · by_cases hrole : sender = s.arbitrator
        · have he : AgentEscrow.resolve s env sender id pct =
              .error AgentEscrow.Err.InvalidState := by
            unfold AgentEscrow.resolve
            rw [if_neg (by simp [hrole]), if_pos (by simp [hterm])]
          simp [AgentEscrow.applyEOp, he, Except.isOk, Except.toBool]
        · have he : AgentEscrow.resolve s env sender id pct =
              .error AgentEscrow.Err.OnlyArbitrator := by
            unfold AgentEscrow.resolve
            rw [if_pos hrole]
          simp [AgentEscrow.applyEOp, he, Except.isOk, Except.toBool]
      · intro hrole
        have hrole' : sender = s.arbitrator := hrole
        have he : AgentEscrow.resolve s env sender id pct =
            .error AgentEscrow.Err.InvalidState := by
          unfold AgentEscrow.resolve
          rw [if_neg (by simp [hrole']), if_pos (by simp [hterm])]
        simp [AgentEscrow.applyEOp, he, Except.isOk, Except.toBool]
  · intro s env id op s' ts h
    cases op with
    | accept sender now =>
      obtain ⟨-, hold, -, -, h1, -⟩ := Escrow.acceptV_inv h
      subst h1
      refine ⟨?_, fun j hj => Escrow.setEscrowV_other _ _ _ _ hj⟩
      rw [hold]
      simp [Escrow.allowedEdge]
    | submit sender now ev =>
      obtain ⟨-, hold, -, h1, -⟩ := Escrow.submitV_inv h
      subst h1
      refine ⟨?_, fun j hj => Escrow.setEscrowV_other _ _ _ _ hj⟩
      rw [hold]
      simp [Escrow.allowedEdge]
    | releasePayment sender =>
      obtain ⟨-, hold, -, h1⟩ := Escrow.releasePayment_inv h
      subst h1
      refine ⟨?_, fun j hj => Escrow.setEscrowV_other _ _ _ _ hj⟩
      rw [hold]
      simp [Escrow.allowedEdge]
    | dispute sender now reason =>
      obtain ⟨-, hold, -, -, h1, -⟩ :=
        @Escrow.disputeV_inv s sender now reason id s' ts h
      subst h1
      refine ⟨?_, fun j hj => Escrow.setEscrowV_other _ _ _ _ hj⟩
      rw [hold]
      simp [Escrow.allowedEdge]
    | resolveDispute sender pct =>
      obtain ⟨-, -, hold, -, h1⟩ := Escrow.resolveDispute_inv h
      subst h1
      refine ⟨?_, fun j hj => Escrow.setEscrowV_other _ _ _ _ hj⟩
      rw [hold]
      simp [Escrow.allowedEdge]
    | cancel sender =>
      obtain ⟨-, hold, -, h1⟩ := Escrow.cancel_inv h
      subst h1
      refine ⟨?_, fun j hj => Escrow.setEscrowV_other _ _ _ _ hj⟩
      rw [hold]
      simp [Escrow.allowedEdge]
    | claimExpired sender now =>
      obtain ⟨-, hold, -, -, h1⟩ := Escrow.claimExpired_inv h
      subst h1
      refine ⟨?_, fun j hj => Escrow.setEscrowV_other _ _ _ _ hj⟩
      rw [hold]
      simp [Escrow.allowedEdge]
  · intro s env id op h0 hterm
    have hstate : ∀ (x : Escrow.EscrowState),
        x = Escrow.EscrowState.PENDING ∨ x = Escrow.EscrowState.ACTIVE ∨
        x = Escrow.EscrowState.SUBMITTED ∨ x = Escrow.EscrowState.DISPUTED →
        (s.escrows id).state ≠ x := by
      intro x hx
      rcases hterm with h | h <;> rw [h] <;>
        rcases hx with h2 | h2 | h2 | h2 <;> subst h2 <;> decide
    cases op with
    | accept sender now =>
      have he : Escrow.acceptEscrow s sender now id =
          .error Escrow.Err.InvalidState := by
        unfold Escrow.acceptEscrow
        rw [if_neg (by simp [h0]), if_pos (hstate _ (by simp))]
      exact ⟨by simp [Escrow.applyEOp, he, Except.isOk, Except.toBool],
        fun _ => by simp [Escrow.applyEOp, he, Except.isOk, Except.toBool]⟩
    | submit sender now ev =>
      have he : Escrow.submitDeliverable s sender now id ev =
          .error Escrow.Err.InvalidState := by
        unfold Escrow.submitDeliverable
        rw [if_neg (by simp [h0]), if_pos (hstate _ (by simp))]
      exact ⟨by simp [Escrow.applyEOp, he, Except.isOk, Except.toBool],
        fun _ => by simp [Escrow.applyEOp, he, Except.isOk, Except.toBool]⟩
    | releasePayment sender =>
      have he : Escrow.releasePayment s env sender id =
          .error Escrow.Err.InvalidState := by
        unfold Escrow.releasePayment
        rw [if_neg (by simp [h0]), if_pos (hstate _ (by simp))]
      exact ⟨by simp [Escrow.applyEOp, he, Except.isOk, Except.toBool],
        fun _ => by simp [Escrow.applyEOp, he, Except.isOk, Except.toBool]⟩
    | dispute sender now reason =>
      have he : Escrow.dispute s sender now reason id =
          .error Escrow.Err.InvalidState := by
        unfold Escrow.dispute
        rw [if_neg (by simp [h0]), if_pos (hstate _ (by simp))]
      exact ⟨by simp [Escrow.applyEOp, he, Except.isOk, Except.toBool],
        fun _ => by simp [Escrow.applyEOp, he, Except.isOk, Except.toBool]⟩
    | resolveDispute sender pct =>
      refine ⟨?_, ?_⟩
      · by_cases hrole : sender = s.protocolArbiter
        · have he : Escrow.resolveDispute s env sender id pct =
              .error Escrow.Err.InvalidState := by
            unfold Escrow.resolveDispute
            rw [if_neg (by simp [hrole]), if_neg (by simp [h0]),
              if_pos (hstate _ (by simp))]
          simp [Escrow.applyEOp, he, Except.isOk, Except.toBool]
        · have he : Escrow.resolveDispute s env sender id pct =
              .error Escrow.Err.NotAuthorized := by
            unfold Escrow.resolveDispute
            rw [if_pos hrole]
          simp [Escrow.applyEOp, he, Except.isOk, Except.toBool]
      · intro hrole
        have hrole' : sender = s.protocolArbiter := hrole
        have he : Escrow.resolveDispute s env sender id pct =
            .error Escrow.Err.InvalidState := by
          unfold Escrow.resolveDispute
          rw [if_neg (by simp [hrole']), if_neg (by simp [h0]),
            if_pos (hstate _ (by simp))]
        simp [Escrow.applyEOp, he, Except.isOk, Except.toBool]
    | cancel sender =>
      have he : Escrow.cancelEscrow s env sender id =
          .error Escrow.Err.InvalidState := by
        unfold Escrow.cancelEscrow
        rw [if_neg (by simp [h0]), if_pos (hstate _ (by simp))]
      exact ⟨by simp [Escrow.applyEOp, he, Except.isOk, Except.toBool],
        fun _ => by simp [Escrow.applyEOp, he, Except.isOk, Except.toBool]⟩
    | claimExpired sender now =>
      have he : Escrow.claimExpiredEscrow s env sender now id =
          .error Escrow.Err.InvalidState := by
        unfold Escrow.claimExpiredEscrow
        rw [if_neg (by simp [h0]), if_pos (hstate _ (by simp))]
      exact ⟨by simp [Escrow.applyEOp, he, Except.isOk, Except.toBool],
        fun _ => by simp [Escrow.applyEOp, he, Except.isOk, Except.toBool]⟩

/-- C7 witness: on a concrete Resolved AgentEscrow escrow the accept
entrypoint fails, and with the role modifier satisfied (accept has
none) the failure is InvalidState; the cancelled Escrow-variant record
likewise rejects a worker accept with InvalidState. -/
theorem C7_amended_monotonic_terminal_witness :
    (AgentEscrow.applyEOp (mkStorageA { baseEscrowA with state := .Resolved })
      env0 0 (.accept 7 10)).isOk = false ∧
    Escrow.applyEOp
        (mkStorageB { baseEscrowB with state := Escrow.EscrowState.CANCELLED })
        env0 0 (.accept 6 10) = .error Escrow.Err.InvalidState := by
  refine ⟨(C7_amended_monotonic_terminal.2.1
    (mkStorageA { baseEscrowA with state := .Resolved })
    env0 0 (.accept 7 10) rfl).1, ?_⟩
  exact (C7_amended_monotonic_terminal.2.2.2
    (mkStorageB { baseEscrowB with state := Escrow.EscrowState.CANCELLED })
    env0 0 (.accept 6 10) (by decide) (Or.inr rfl)).2 rfl
